import Mathlib

/-!
Verification development for the Pokedex research agent
(`src/llm_agent.py`, `src/pokeapi_tools.py`, `src/models.py`).

The Python code is shallowly embedded: every external effect (the OpenAI
oracle, the PokeAPI HTTP endpoints, the web searcher) is supplied by an
explicit environment record, exceptions become `Except` / an `Option String`
exception component, JSON values become the `JValue` inductive, and the
mutable `ResearchContext` is threaded as an immutable record.
-/

namespace Pokedex

/-- JSON values as produced by `json.loads`.  Python distinguishes ints,
floats and bools (`isinstance(x, int)` is true for bools), so the embedding
keeps those constructors separate. -/
inductive JValue where
  | nul
  | bool (b : Bool)
  | int (n : Int)
  | float (q : ℚ)
  | str (s : String)
  | arr (xs : List JValue)
  | obj (kv : List (String × JValue))
deriving Inhabited

/-- Python truthiness of a JSON value (`if x:`). -/
def pyTruthy : JValue → Bool
  | .nul => false
  | .bool b => b
  | .int n => n ≠ 0
  | .float q => q ≠ 0
  | .str s => s ≠ ""
  | .arr xs => ¬ xs.isEmpty
  | .obj kv => ¬ kv.isEmpty

/-- Python `str(x)` for the scalar JSON values; containers get a fixed
placeholder rendering (no claim evaluates `str` on a container). -/
def pyStr : JValue → String
  | .nul => "None"
  | .bool true => "True"
  | .bool false => "False"
  | .int n => toString n
  | .float q => toString q
  | .str s => s
  | .arr _ => "[...]"
  | .obj _ => "\x7b...\x7d"

/-- Python `s.lower()` (the embedding maps `Char.toLower` over the
characters; the source only ever lowercases ASCII names). -/
def pyLower (s : String) : String := ⟨s.data.map Char.toLower⟩

/-- `', '.join(x)` succeeds in Python when `x` is a list of strings, a
string, or a dict (whose keys are strings); on other values it raises
`TypeError`. -/
def pyJoinable : JValue → Bool
  | .arr xs => xs.all fun v => match v with | .str _ => true | _ => false
  | .str _ => true
  | .obj _ => true
  | _ => false

/-- Normalized Pokemon record (`models.PokemonData`).  `height` and `weight`
are rationals because the source divides the raw integers by `10.0`. -/
structure PokemonData where
  id : Int
  name : String
  types : List String
  height : ℚ
  weight : ℚ
  base_experience : Int
  abilities : List String
  stats : List (String × Int)
  moves : List String
  sprites : List (String × JValue)
  description : Option String := none
  evolution_chain : Option (List String) := none
deriving Inhabited

/-- Values held in `ResearchContext.collected_data`.  Most entries are plain
JSON, but the `get_pokemon_by_type` and `search_pokemon` dispatcher branches
store lists of `PokemonData` objects directly (without `model_dump()`), and
such objects are not `json.dumps`-serializable. -/
inductive CDValue where
  | json (v : JValue)
  | pokemonList (ps : List PokemonData)
deriving Inhabited

/-- `d[k]` lookup in an insertion-ordered dict embedded as an
association list. -/
def getKey : List (String × CDValue) → String → Option CDValue
  | [], _ => none
  | (k', v') :: rest, k => if k' = k then some v' else getKey rest k

/-- `d[k] = v` on an insertion-ordered dict: replace in place if the key
exists, append otherwise. -/
def setKey : List (String × CDValue) → String → CDValue → List (String × CDValue)
  | [], k, v => [(k, v)]
  | (k', v') :: rest, k, v =>
    if k' = k then (k', v) :: rest else (k', v') :: setKey rest k v

/-- `json.dumps(collected_data)` succeeds exactly when every stored value is
plain JSON (a `PokemonData` object raises `TypeError`). -/
def cdDumpable (cd : List (String × CDValue)) : Bool :=
  cd.all fun kv => match kv.2 with | .json _ => true | .pokemonList _ => false

/-! ## PokeAPI client (`pokeapi_tools.py`)

`PokeAPIClient._make_request` returns the parsed JSON on HTTP 200 and `None`
on any other status or on a network error / timeout (with a logged warning).
The environment therefore exposes each endpoint family as a typed
`Option`-valued map; `none` stands for every `_make_request` failure.
The module-level `fetch_all_pokemon` / `fetch_pokemon_ability` use
`requests` + `raise_for_status()` instead, so their environment entries are
`Except`-valued HTTP responses with a status code. -/

/-- Upstream raw record for a `pokemon/<x>` endpoint: exactly the fields the
source indexes out of `data`.  `height` is in decimeters, `weight` in
hectograms, both divided by `10.0` at the boundary. -/
structure RawPokemon where
  id : Int
  name : String
  types : List String
  height : Int
  weight : Int
  base_experience : Int
  abilities : List String
  stats : List (String × Int)
  moves : List String
  front_default : JValue
  back_default : JValue
  front_shiny : JValue
  back_shiny : JValue
deriving Inhabited

/-- One `flavor_text_entries` element of a species record. -/
structure FlavorEntry where
  language : String
  flavor_text : String
deriving Inhabited

/-- Upstream `pokemon-species/<x>` record (the fields the source reads). -/
structure RawSpecies where
  evolution_chain_url : Option String
  flavor_text_entries : List FlavorEntry
deriving Inhabited

/-- The `chain` object of an `evolution-chain/<id>` response. -/
inductive EvoNode where
  | node (species : String) (evolves_to : List EvoNode)
deriving Inhabited

/-- An HTTP response as seen by the `requests`-based module functions. -/
structure HttpResp where
  status : Nat
  body : JValue
deriving Inhabited

/-- Upstream world for the PokeAPI client.  `Option`-valued fields model
`_make_request` (already `none` on non-200 or network failure);
`Except`-valued fields model raw `requests.get` calls, where `.error` is a
network exception. -/
structure PokeEnv where
  pokemonEndpoint : String → Option RawPokemon
  typeEndpoint : String → Option (List String)
  allPokemon : Option (List String)
  speciesEndpoint : String → Option RawSpecies
  evoChainEndpoint : String → Option EvoNode
  typeIndex : Option (List String)
  generationEndpoint : String → Option JValue
  fetchAllResp : JValue → JValue → Except String HttpResp
  abilityResp : String → Except String HttpResp

/-- The `PokemonData(...)` construction inside `get_pokemon_by_name`:
unit conversion by `10.0` and the first-20-moves cap. -/
def normalizePokemon (raw : RawPokemon) : PokemonData :=
  { id := raw.id
    name := raw.name
    types := raw.types
    height := (raw.height : ℚ) / 10
    weight := (raw.weight : ℚ) / 10
    base_experience := raw.base_experience
    abilities := raw.abilities
    stats := raw.stats
    moves := raw.moves.take 20
    sprites :=
      [("front_default", raw.front_default), ("back_default", raw.back_default),
       ("front_shiny", raw.front_shiny), ("back_shiny", raw.back_shiny)] }

/-- `PokeAPIClient.get_pokemon_by_name`. -/
def get_pokemon_by_name (env : PokeEnv) (name : String) : Option PokemonData :=
  (env.pokemonEndpoint ("pokemon/" ++ (pyLower name))).map normalizePokemon

/-- `PokeAPIClient.get_pokemon_by_id`: delegates to the name lookup on the
decimal string of the id. -/
def get_pokemon_by_id (env : PokeEnv) (pokemon_id : Int) : Option PokemonData :=
  get_pokemon_by_name env (toString pokemon_id)

/-- `PokeAPIClient.get_pokemon_by_type`: first 50 members, each resolved via
the name lookup, unresolvable ones dropped. -/
def get_pokemon_by_type (env : PokeEnv) (pokemon_type : String) : List PokemonData :=
  match env.typeEndpoint ("type/" ++ (pyLower pokemon_type)) with
  | none => []
  | some names => (names.take 50).filterMap (get_pokemon_by_name env)

/-- `in` test on strings (Python substring containment). -/
def strContains (hay nee : String) : Bool :=
  (List.range (hay.data.length + 1)).any fun i =>
    (hay.data.drop i).take nee.data.length == nee.data

/-- `PokeAPIClient.search_pokemon`: scan the first-1000 listing for names
containing the query (case-insensitive) and resolve each. -/
def search_pokemon (env : PokeEnv) (query : String) : List PokemonData :=
  match env.allPokemon with
  | none => []
  | some names =>
    (names.filter fun n => strContains (pyLower n) (pyLower query)).filterMap
      (get_pokemon_by_name env)

mutual

/-- Depth-first flattening of an evolution chain (`extract_evolutions`). -/
def extractEvolutions : EvoNode → List String
  | .node species children => species :: extractEvolutionsList children

/-- The `for evolution in chain_link["evolves_to"]` recursion. -/
def extractEvolutionsList : List EvoNode → List String
  | [] => []
  | c :: cs => extractEvolutions c ++ extractEvolutionsList cs

end

/-- `s.split("/")` on the character list. -/
def splitSlash : List Char → List (List Char)
  | [] => [[]]
  | x :: xs =>
    match splitSlash xs with
    | [] => [[]]
    | h :: t => if x = '/' then [] :: h :: t else (x :: h) :: t

/-- `url.split("/")[-2]`. -/
def secondToLastPart (url : String) : String :=
  ((((splitSlash url.data).map fun l => String.mk l).reverse).drop 1).headD ""

/-- `PokeAPIClient.get_evolution_chain`. -/
def get_evolution_chain (env : PokeEnv) (pokemon_name : String) : List String :=
  match env.speciesEndpoint ("pokemon-species/" ++ (pyLower pokemon_name)) with
  | none => []
  | some species =>
    match species.evolution_chain_url with
    | none => []
    | some url =>
      match env.evoChainEndpoint (secondToLastPart url) with
      | none => []
      | some chain => extractEvolutions chain

/-- `PokeAPIClient.get_pokemon_description`: first English flavor-text entry
with newline and form-feed characters replaced by spaces. -/
def get_pokemon_description (env : PokeEnv) (pokemon_name : String) : Option String :=
  match env.speciesEndpoint ("pokemon-species/" ++ (pyLower pokemon_name)) with
  | none => none
  | some species =>
    if species.flavor_text_entries.isEmpty then none
    else
      match species.flavor_text_entries.find? (fun e => e.language = "en") with
      | none => none
      | some e => some (((e.flavor_text).replace "\n" " ").replace "\x0c" " ")

/-- `PokeAPIClient.get_all_types`. -/
def get_all_types (env : PokeEnv) : List String :=
  (env.typeIndex).getD []

/-- `PokeAPIClient.get_generation_info`: returns `_make_request` directly. -/
def get_generation_info (env : PokeEnv) (generation : String) : Option JValue :=
  env.generationEndpoint ("generation/" ++ (pyLower generation))

/-- `response.raise_for_status()` followed by `response.json()`: raises
`HTTPError` on a 4xx/5xx status, otherwise yields the body. -/
def raise_for_status_json (r : HttpResp) : Except String JValue :=
  if 400 ≤ r.status then .error ("HTTP Error " ++ toString r.status)
  else .ok r.body

/-- Module-level `fetch_all_pokemon`: a raw `requests.get` whose network
errors and `raise_for_status` HTTP errors propagate to the caller. -/
def fetch_all_pokemon (env : PokeEnv) (limit offset : JValue) : Except String JValue := do
  let r ← env.fetchAllResp limit offset
  raise_for_status_json r

/-- Module-level `fetch_pokemon_ability`: same raising behavior. -/
def fetch_pokemon_ability (env : PokeEnv) (ability_name : String) : Except String JValue := do
  let r ← env.abilityResp (pyLower ability_name)
  raise_for_status_json r

/-! ## Data model (`models.py`) -/

/-- `models.ResearchStepType`. -/
inductive ResearchStepType where
  | CLARIFICATION
  | POKEAPI_QUERY
  | WEB_SEARCH
  | ANALYSIS
  | SYNTHESIS
deriving Inhabited, DecidableEq

/-- `models.ResearchStep` (the timestamp field is not modelled; no claim
mentions it).  Defaults mirror the pydantic model: `success=True`,
`sources=[]`, `error_message=None`. -/
structure ResearchStep where
  step_type : ResearchStepType
  description : String
  input_data : Option (List (String × CDValue)) := none
  output_data : Option (List (String × CDValue)) := none
  sources : List String := []
  success : Bool := true
  error_message : Option String := none
deriving Inhabited

/-- `models.ResearchContext`.  `clarified_goals` is declared `List[str]` but
pydantic does not validate plain attribute assignment, so the clarification
phase can store an arbitrary JSON value there; the embedding uses `JValue`. -/
structure Context where
  original_query : String
  clarified_goals : JValue := .arr []
  research_steps : List ResearchStep := []
  collected_data : List (String × CDValue) := []
  current_focus : Option String := none
  user_feedback : Option String := none
deriving Inhabited

/-- `models.ResearchReport` (timestamp again omitted).  The fields the
orchestrator fills from oracle JSON keep their `JValue` form. -/
structure ResearchReport where
  query : String
  executive_summary : String
  detailed_findings : List (String × CDValue)
  recommendations : JValue
  sources : List String
  research_steps : List ResearchStep
  confidence_score : JValue
  limitations : JValue
deriving Inhabited

/-- Append one step to the ledger (`context.research_steps.append(step)`). -/
def appendStep (ctx : Context) (s : ResearchStep) : Context :=
  { ctx with research_steps := ctx.research_steps ++ [s] }

/-- `context.collected_data[k] = v`. -/
def setCD (ctx : Context) (k : String) (v : CDValue) : Context :=
  { ctx with collected_data := setKey ctx.collected_data k v }

/-- The `arguments` string of a tool call, as the dispatcher sees it:
absent or empty (Python falsy, replaced by the literal string of an empty
object), a string `json.loads` rejects, or a string parsing to `v`. -/
inductive ArgsRaw where
  | empty
  | malformed (s : String)
  | parsed (v : JValue)

/-- One tool invocation request emitted by the oracle. -/
structure ToolCall where
  name : String
  args : ArgsRaw

/-- `d.get(k)` on a parsed JSON object embedded as an association list. -/
def jLookup : List (String × JValue) → String → Option JValue
  | [], _ => none
  | (k', v') :: rest, k => if k' = k then some v' else jLookup rest k

/-! ## Oracle outcomes and the agent environment

Each OpenAI call is resolved by the environment into one of a small set of
outcomes mirroring the control paths of the source. -/

/-- Outcome of an LLM call whose content the source feeds to `json.loads`
and then indexes with `.get` (clarification and analysis).  `ok` carries the
parsed JSON object; a response whose content parses to a non-object is
`malformed` because the subsequent `.get` raises `AttributeError` inside the
same `try`. -/
inductive JsonOracle where
  | raised (e : String)
  | noContent
  | malformed (e : String)
  | ok (data : List (String × JValue))

/-- Outcome of a research-subagent LLM call: either the API call raised, or
a message with optional text content and an optional tool-call list
(`message.tool_calls` is `None` when the model made no tool calls). -/
inductive OracleMsg where
  | raised (e : String)
  | msg (content : Option String) (toolCalls : Option (List ToolCall))

/-- Outcome of the report-writer LLM call. -/
inductive TextOracle where
  | raised (e : String)
  | noContent
  | content (s : String)

/-- One web search hit: a dict that at least contains a `url` key. -/
structure WebResult where
  url : String
  extra : List (String × JValue) := []

/-- The four `WebSearcher` lookups performed by `_research_pokemon_web`,
resolved as one environment call (all four happen before any state
mutation, so a raise anywhere behaves like a raise of the group). -/
structure WebFetch where
  web_results : List WebResult
  training_tips : JValue
  competitive_info : JValue
  location_info : JValue

/-- The complete external world of one `LLMAgent` run. -/
structure AgentEnv where
  poke : PokeEnv
  webInfo : String → Except String WebFetch
  clarifyResp : Context → JsonOracle
  research1 : Context → Nat → OracleMsg
  research2 : Context → Nat → OracleMsg
  analysisResp : Context → JsonOracle
  reportResp : Context → TextOracle

/-! ## Research helpers (`llm_agent.py` lines 363-504) -/

/-- `PokemonData.model_dump()` as a JSON object. -/
def encodePokemon (p : PokemonData) : JValue :=
  .obj [("id", .int p.id), ("name", .str p.name),
        ("types", .arr (p.types.map .str)),
        ("height", .float p.height), ("weight", .float p.weight),
        ("base_experience", .int p.base_experience),
        ("abilities", .arr (p.abilities.map .str)),
        ("stats", .obj (p.stats.map fun s => (s.1, .int s.2))),
        ("moves", .arr (p.moves.map .str)),
        ("sprites", .obj p.sprites),
        ("description", match p.description with | some d => .str d | none => .nul),
        ("evolution_chain",
          match p.evolution_chain with | some c => .arr (c.map .str) | none => .nul),
        ("location_areas", .nul)]

/-- One web search hit as the dict it came from. -/
def encodeWebResult (r : WebResult) : JValue :=
  .obj (("url", .str r.url) :: r.extra)

/-- `LLMAgent._research_pokemon_api`: on a found record, enrich it with
description and evolution chain (empty/None values are falsy and skipped),
store it under `pokemon_<name>` and append a sourced success step; a record
that is not found records nothing; calling the client with a non-string
raises inside the `try` and records a failed step. -/
def researchPokemonApi (env : AgentEnv) (pokemon_name : JValue) (ctx : Context) : Context :=
  match pokemon_name with
  | .str nm =>
    match get_pokemon_by_name env.poke nm with
    | none => ctx
    | some pd =>
      let description := get_pokemon_description env.poke nm
      let evolution_chain := get_evolution_chain env.poke nm
      let pd := match description with
        | some d => if d ≠ "" then { pd with description := some d } else pd
        | none => pd
      let pd := if ¬ evolution_chain.isEmpty
        then { pd with evolution_chain := some evolution_chain } else pd
      let ctx := setCD ctx ("pokemon_" ++ nm) (.json (encodePokemon pd))
      appendStep ctx
        { step_type := .POKEAPI_QUERY
          description := "Retrieved comprehensive data for " ++ nm ++ " from PokeAPI"
          output_data := some [("pokemon_data", .json (encodePokemon pd))]
          sources := ["https://pokeapi.co/api/v2/pokemon/" ++ nm] }
  | v =>
    appendStep ctx
      { step_type := .POKEAPI_QUERY
        description := "Failed to retrieve data for " ++ pyStr v
        success := false
        error_message := some "AttributeError: object has no attribute lower" }

/-- `LLMAgent._research_pokemon_web`: gather the four web lookups, store
them under `web_data_<name>` and append a step sourced by the result URLs;
any raise is caught and recorded as a failed step. -/
def researchPokemonWeb (env : AgentEnv) (pokemon_name : JValue) (ctx : Context) : Context :=
  match env.webInfo (pyStr pokemon_name) with
  | .error e =>
    appendStep ctx
      { step_type := .WEB_SEARCH
        description := "Failed to gather web data for " ++ pyStr pokemon_name
        success := false
        error_message := some e }
  | .ok wf =>
    let web_data : List (String × JValue) :=
      [("web_results", .arr (wf.web_results.map encodeWebResult)),
       ("training_tips", wf.training_tips),
       ("competitive_info", wf.competitive_info),
       ("location_info", wf.location_info)]
    let ctx := setCD ctx ("web_data_" ++ pyStr pokemon_name) (.json (.obj web_data))
    appendStep ctx
      { step_type := .WEB_SEARCH
        description :=
          "Gathered additional information about " ++ pyStr pokemon_name ++ " from web sources"
        output_data := some (web_data.map fun kv => (kv.1, .json kv.2))
        sources := wf.web_results.map (·.url) }

/-- `LLMAgent._research_training_info` over its fixed early-game list. -/
def researchTrainingInfo (env : AgentEnv) (ctx : Context) : Context :=
  let early := ["pikachu", "charmander", "bulbasaur", "squirtle", "pidgey", "rattata"]
  let training_data : List (String × JValue) := early.filterMap fun nm =>
    match get_pokemon_by_name env.poke nm with
    | some pd => some (nm, .obj
        [("base_exp", .int pd.base_experience),
         ("evolution_chain", .arr ((get_evolution_chain env.poke nm).map .str)),
         ("stats", .obj (pd.stats.map fun s => (s.1, .int s.2)))])
    | none => none
  let ctx := setCD ctx "training_research" (.json (.obj training_data))
  appendStep ctx
    { step_type := .ANALYSIS
      description := "Researched and analysed training information for early-game Pokemon"
      output_data := some (training_data.map fun kv => (kv.1, .json kv.2)) }

/-- `LLMAgent._research_unique_pokemon`: for each fixed criterion occurring
in the query, the first ten search results, dumped. -/
def researchUniquePokemon (env : AgentEnv) (ctx : Context) : Context :=
  let criteria := ["legendary", "mythical", "regional", "fossil", "water", "ocean"]
  let unique_pokemon : List (String × JValue) :=
    (criteria.filter fun c => strContains (pyLower ctx.original_query) c).map fun c =>
      (c, .arr (((search_pokemon env.poke c).take 10).map encodePokemon))
  let ctx := setCD ctx "unique_pokemon" (.json (.obj unique_pokemon))
  appendStep ctx
    { step_type := .ANALYSIS
      description := "Researched and analysed unique Pokemon matching the query criteria"
      output_data := some (unique_pokemon.map fun kv => (kv.1, .json kv.2)) }

/-! ## Function dispatcher (`LLMAgent._execute_function_calls`) -/

/-- `json.loads(function_call.function.arguments or "\x7b\x7d")`. -/
def parseArgs : ArgsRaw → Except String JValue
  | .empty => .ok (.obj [])
  | .malformed s => .error ("json.loads failed: " ++ s)
  | .parsed v => .ok v

/-- `function_args.get(k)`: raises `AttributeError` unless the parsed
arguments are an object. -/
def pyGet (args : JValue) (k : String) : Except String (Option JValue) :=
  match args with
  | .obj kv => .ok (jLookup kv k)
  | _ => .error "AttributeError: object has no attribute get"

/-- `function_args.get(k, d)`. -/
def pyGetD (args : JValue) (k : String) (d : JValue) : Except String JValue := do
  let v? ← pyGet args k
  .ok (v?.getD d)

/-- Passing a JSON value where the client immediately calls `.lower()` on
it: anything but a string raises `AttributeError`. -/
def asStr (v : JValue) : Except String String :=
  match v with
  | .str s => .ok s
  | _ => .error "AttributeError: object has no attribute lower"

/-- Iterating a parsed JSON value (`[p for p in x]`): a dict yields its
keys, a list its elements, a string its characters; scalars raise. -/
def pyIterKeys (v : JValue) : Except String (List JValue) :=
  match v with
  | .obj kv => .ok (kv.map fun p => .str p.1)
  | .arr xs => .ok xs
  | .str s => .ok (s.data.map fun c => .str (String.singleton c))
  | _ => .error "TypeError: object is not iterable"

/-- The `x = function_args.get(k)` / `if x:` idiom repeated by every
argument-taking dispatcher branch: a missing or falsy argument makes the
branch a silent no-op, otherwise the branch action runs on the value. -/
def argTruthy (args : JValue) (key : String) (ctx : Context)
    (act : JValue → Except String Context) : Except String Context := do
  let v? ← pyGet args key
  match v? with
  | some v => if pyTruthy v then act v else .ok ctx
  | none => .ok ctx

/-- Branch body for `get_pokemon_by_name`: `model_dump()` on a `None`
lookup result raises. -/
def act_get_pokemon_by_name (env : AgentEnv) (ctx : Context) (v : JValue) :
    Except String Context := do
  let s ← asStr v
  match get_pokemon_by_name env.poke s with
  | some pd => .ok (setCD ctx ("pokemon_" ++ s) (.json (encodePokemon pd)))
  | none => .error "AttributeError: NoneType has no attribute model_dump"

/-- Branch body for `get_pokemon_by_id`: `get_pokemon_by_id` stringifies
its argument, so no `AttributeError` on non-strings here. -/
def act_get_pokemon_by_id (env : AgentEnv) (ctx : Context) (v : JValue) :
    Except String Context :=
  match get_pokemon_by_name env.poke (pyStr v) with
  | some pd => .ok (setCD ctx ("pokemon_id_" ++ pyStr v) (.json (encodePokemon pd)))
  | none => .error "AttributeError: NoneType has no attribute model_dump"

/-- Branch body for `get_pokemon_by_type`: stores the `PokemonData` objects
themselves (no `model_dump`). -/
def act_get_pokemon_by_type (env : AgentEnv) (ctx : Context) (v : JValue) :
    Except String Context := do
  let s ← asStr v
  .ok (setCD ctx ("pokemon_type_" ++ s) (.pokemonList (get_pokemon_by_type env.poke s)))

/-- Branch body for `search_pokemon`: also stores raw objects. -/
def act_search_pokemon (env : AgentEnv) (ctx : Context) (v : JValue) :
    Except String Context := do
  let s ← asStr v
  .ok (setCD ctx ("search_" ++ s) (.pokemonList (search_pokemon env.poke s)))

/-- Branch body for `get_evolution_chain`. -/
def act_get_evolution_chain (env : AgentEnv) (ctx : Context) (v : JValue) :
    Except String Context := do
  let s ← asStr v
  .ok (setCD ctx ("evolution_chain_" ++ s)
    (.json (.arr ((get_evolution_chain env.poke s).map .str))))

/-- Branch body for `get_pokemon_description` (stores `None` as well). -/
def act_get_pokemon_description (env : AgentEnv) (ctx : Context) (v : JValue) :
    Except String Context := do
  let s ← asStr v
  .ok (setCD ctx ("description_" ++ s)
    (.json (match get_pokemon_description env.poke s with
            | some t => .str t
            | none => .nul)))

/-- Branch body for `get_generation_info` (stores `None` as well). -/
def act_get_generation_info (env : AgentEnv) (ctx : Context) (v : JValue) :
    Except String Context := do
  let s ← asStr v
  .ok (setCD ctx ("generation_" ++ s) (.json ((get_generation_info env.poke s).getD .nul)))

/-- Branch body for `fetch_pokemon_ability`: the fetch can raise. -/
def act_fetch_pokemon_ability (env : AgentEnv) (ctx : Context) (v : JValue) :
    Except String Context := do
  let s ← asStr v
  let j ← fetch_pokemon_ability env.poke s
  .ok (setCD ctx ("ability_" ++ s) (.json j))

/-- The `fetch_all_pokemon` branch: defaulted arguments, a raising fetch,
and iteration over the parsed body (yielding dict keys). -/
def dispatch_fetch_all (env : AgentEnv) (ctx : Context) (args : JValue) :
    Except String Context := do
  let limit ← pyGetD args "limit" (.int 100)
  let offset ← pyGetD args "offset" (.int 0)
  let j ← fetch_all_pokemon env.poke limit offset
  let keys ← pyIterKeys j
  .ok (setCD ctx ("all_pokemon_" ++ pyStr offset ++ "_" ++ pyStr limit) (.json (.arr keys)))

/-- The dispatch table of `_execute_function_calls`: one branch per tool
name, merging the result into `collected_data` under the documented key; an
unknown name is a logged warning with no mutation.  A raise anywhere in a
branch is the `.error` case, caught per call by `execOne`. -/
def tryDispatch (env : AgentEnv) (ctx : Context) (fname : String) (args : JValue) :
    Except String Context :=
  if fname = "get_pokemon_by_name" then
    argTruthy args "name" ctx (act_get_pokemon_by_name env ctx)
  else if fname = "get_pokemon_by_id" then
    argTruthy args "pokemon_id" ctx (act_get_pokemon_by_id env ctx)
  else if fname = "get_pokemon_by_type" then
    argTruthy args "pokemon_type" ctx (act_get_pokemon_by_type env ctx)
  else if fname = "search_pokemon" then
    argTruthy args "query" ctx (act_search_pokemon env ctx)
  else if fname = "get_evolution_chain" then
    argTruthy args "pokemon_name" ctx (act_get_evolution_chain env ctx)
  else if fname = "get_pokemon_description" then
    argTruthy args "pokemon_name" ctx (act_get_pokemon_description env ctx)
  else if fname = "get_all_types" then
    .ok (setCD ctx "all_types" (.json (.arr ((get_all_types env.poke).map .str))))
  else if fname = "get_generation_info" then
    argTruthy args "generation" ctx (act_get_generation_info env ctx)
  else if fname = "fetch_all_pokemon" then
    dispatch_fetch_all env ctx args
  else if fname = "fetch_pokemon_ability" then
    argTruthy args "ability_name" ctx (act_fetch_pokemon_ability env ctx)
  else if fname = "_research_pokemon_api" then
    argTruthy args "pokemon_name" ctx (fun v => .ok (researchPokemonApi env v ctx))
  else if fname = "_research_pokemon_web" then
    argTruthy args "pokemon_name" ctx (fun v => .ok (researchPokemonWeb env v ctx))
  else if fname = "_research_training_info" then
    .ok (researchTrainingInfo env ctx)
  else if fname = "_research_unique_pokemon" then
    .ok (researchUniquePokemon env ctx)
  else
    .ok ctx

/-- One iteration of the dispatch loop: the whole branch runs under a
per-call `try`, and a raise appends exactly one failed `SYNTHESIS` step
naming the failing tool before the loop continues. -/
def execOne (env : AgentEnv) (i : Nat) (ctx : Context) (tc : ToolCall) : Context :=
  match (do
      let args ← parseArgs tc.args
      tryDispatch env ctx tc.name args : Except String Context) with
  | .ok ctx' => ctx'
  | .error e =>
    appendStep ctx
      { step_type := .SYNTHESIS
        description :=
          "Failed research subagent " ++ toString (i + 1) ++
            " in executing function " ++ tc.name
        success := false
        error_message := some e }

/-- The dispatch loop over one batch of tool calls. -/
def execBatch (env : AgentEnv) (i : Nat) (tcs : List ToolCall) (ctx : Context) : Context :=
  tcs.foldl (execOne env i) ctx

/-- `_execute_function_calls` as invoked on a raw message: iterating a
`None` tool-call list raises `TypeError`; a real list is dispatched. -/
def execFunctionCalls (env : AgentEnv) (i : Nat) (toolCalls : Option (List ToolCall))
    (ctx : Context) : Context × Option String :=
  match toolCalls with
  | none => (ctx, some "TypeError: NoneType object is not iterable")
  | some l => (execBatch env i l ctx, none)

/-! ## Clarification phase (`LLMAgent._clarify_goals`) -/

/-- The failed clarification step of the `except` branch. -/
def failClarStep (e : String) : ResearchStep :=
  { step_type := .CLARIFICATION
    description := "Failed to clarify goals"
    success := false
    error_message := some e }

/-- `_clarify_goals`.  The second component is an escaping exception: when
the LLM call itself raises, the `except` handler raises `UnboundLocalError`
because its debug print reads the local `response`, which was never
assigned; that exception is not caught anywhere in the method.  A missing
or malformed content leaves `response` bound, so the handler completes and
appends a failed step. -/
def clarifyGoals (env : AgentEnv) (ctx : Context) : Context × Option String :=
  match env.clarifyResp ctx with
  | .raised _ =>
    (ctx, some "UnboundLocalError: cannot access local variable response")
  | .noContent =>
    (appendStep ctx (failClarStep "LLM returned no clarification goal content"), none)
  | .malformed e =>
    (appendStep ctx (failClarStep e), none)
  | .ok data =>
    let ctx := { ctx with clarified_goals := (jLookup data "goals").getD (.arr []) }
    let ctx := setCD ctx "pokemon_to_research"
      (.json ((jLookup data "pokemon_to_research").getD (.arr [])))
    let ctx := setCD ctx "research_focus"
      (.json ((jLookup data "research_focus").getD (.str "")))
    let ctx := setCD ctx "constraints"
      (.json ((jLookup data "constraints").getD (.arr [])))
    let ctx := setCD ctx "subagent_instructions"
      (.json ((jLookup data "subagent_instructions").getD (.arr [])))
    let ctx := setCD ctx "num_subagents"
      (.json ((jLookup data "num_subagents").getD (.int 1)))
    (appendStep ctx
      { step_type := .CLARIFICATION
        description := "Clarified research goals and identified key areas to investigate"
        output_data := some (data.map fun kv => (kv.1, .json kv.2)) }, none)

/-! ## Research phase (`LLMAgent._conducting_research`) -/

/-- Lines 113-115: `num_subagents` falls back to 1 when absent, and is
forced to 1 unless it is an `int` that is at least 1.  A Python `bool` is
an `int` instance, but `True` runs one worker and `False` is below 1, so
both land on a single worker. -/
def clampNumSubagents : Option CDValue → Nat
  | some (.json (.int n)) => if n < 1 then 1 else n.toNat
  | _ => 1

/-- Lines 119-124: the raw instruction value defaults to an empty dict, and
a dict is replaced by the list of its values; anything else is used as is. -/
def instrsOf : Option CDValue → JValue
  | none => .arr []
  | some (.json (.obj kv)) => .arr (kv.map (·.2))
  | some (.json v) => v
  | some (.pokemonList _) => .arr []

/-- `len(x)` on the instruction value (raises `TypeError` on scalars). -/
def pyLen : JValue → Except String Nat
  | .arr xs => .ok xs.length
  | .obj kv => .ok kv.length
  | .str s => .ok s.data.length
  | _ => .error "TypeError: object has no len"

/-- `x[i]` for the values `pyLen` accepts; always guarded by `i < len`, and
a dict can no longer appear here because `instrsOf` converts dicts. -/
def pyIndex : JValue → Nat → JValue
  | .arr xs, i => xs.getD i .nul
  | .str s, i => .str (String.singleton (s.data.getD i ' '))
  | _, _ => .nul

/-- Line 127: `subagent_instructions[i] if i < len(subagent_instructions)
else ""` — a worker index past the supplied instructions gets the empty
string. -/
def workerTask (instrs : JValue) (i : Nat) : Except String JValue := do
  let n ← pyLen instrs
  if i < n then .ok (pyIndex instrs i) else .ok (.str "")

/-- Whether `', '.join(x)` succeeds on a collected-data value (a list of
`PokemonData` objects raises `TypeError`). -/
def pyJoinableCD : CDValue → Bool
  | .json j => pyJoinable j
  | .pokemonList _ => false

/-- A failed worker step; `phase` is the literal tail of the source
f-string, including the trailing space of `"step 1 "`. -/
def failWorkerStep (i : Nat) (phase : String) (e : String) : ResearchStep :=
  { step_type := .SYNTHESIS
    description := "Failed research subagent " ++ toString (i + 1) ++ " in " ++ phase
    success := false
    error_message := some e }

/-- Lines 154-160: when the message holds tool calls, the body of the
`for tool_call in message.tool_calls` loop dispatches the whole batch, so
the batch runs once per tool call it contains. -/
def batchReplay (env : AgentEnv) (i : Nat) (toolCalls : Option (List ToolCall))
    (ctx : Context) : Context :=
  if 0 < (toolCalls.getD []).length then
    (List.range (toolCalls.getD []).length).foldl
      (fun c _ => execBatch env i (toolCalls.getD []) c) ctx
  else ctx

/-- The inner `try` of the worker loop (lines 179-219): the synthesis
LLM call; every raise is caught there and recorded as a failed step. -/
def workerSynthesis (env : AgentEnv) (i : Nat) (ctx : Context) : Context :=
  match env.research2 ctx i with
  | .raised e => appendStep ctx (failWorkerStep i "step 2" e)
  | .msg c2 _ =>
    match c2 with
    | none => appendStep ctx (failWorkerStep i "step 2"
        ("subagent " ++ toString (i + 1) ++ " returned no content"))
    | some s =>
      let ctx := setCD ctx ("subagent_" ++ toString (i + 1) ++ "_synthesis")
        (.json (.str s))
      appendStep ctx
        { step_type := .SYNTHESIS
          description := "Completed synthesis for research subagent " ++ toString (i + 1)
          output_data :=
            some [("subagent_" ++ toString (i + 1) ++ "synthesis", .json (.str s))] }

/-- Lines 163-219 of the worker loop, applied to the context left by the
tool-call replay: the empty-scratchpad content check, the `Completed
research subagent` step, the unconditional re-dispatch at line 177 (which
raises on a `None` tool-call list and is then caught as a step-1 failure),
and finally the synthesis sub-phase. -/
def runWorkerAfterBatch (env : AgentEnv) (i : Nat) (content : Option String)
    (toolCalls : Option (List ToolCall)) (ctx : Context) : Context × Option String :=
  if ctx.collected_data.isEmpty ∧ content.isNone then
    (appendStep ctx (failWorkerStep i "step 1 "
      ("subagent " ++ toString (i + 1) ++ " returned no content")), none)
  else
    match execFunctionCalls env i toolCalls (appendStep ctx
      { step_type := .SYNTHESIS
        description := "Completed research subagent " ++ toString (i + 1)
        output_data := some ctx.collected_data }) with
    | (c, some e) => (appendStep c (failWorkerStep i "step 1 " e), none)
    | (c, none) => (workerSynthesis env i c, none)

/-- The body of the subagent loop for worker `i` (lines 126-230).  The
second component is an exception escaping the whole research phase: the
task selection and the prompt construction run before the `try`, so a
`TypeError` from `len` or `join` propagates. -/
def runWorker (env : AgentEnv) (instrs : JValue) (num_subagents : Nat) (i : Nat)
    (ctx : Context) : Context × Option String :=
  let _ := num_subagents
  match workerTask instrs i with
  | .error e => (ctx, some e)
  | .ok _task =>
  if ¬ pyJoinableCD ((getKey ctx.collected_data "constraints").getD (.json (.arr []))) then
    (ctx, some "TypeError: sequence item is not a str instance")
  else if ¬ pyJoinableCD
      ((getKey ctx.collected_data "pokemon_to_research").getD (.json (.arr []))) then
    (ctx, some "TypeError: sequence item is not a str instance")
  else
  match env.research1 ctx i with
  | .raised e => (appendStep ctx (failWorkerStep i "step 1 " e), none)
  | .msg content toolCalls =>
    runWorkerAfterBatch env i content toolCalls (batchReplay env i toolCalls ctx)

/-- Sequential processing of the worker indices; an escaping exception
aborts the remaining workers. -/
def workersLoop (env : AgentEnv) (instrs : JValue) (n : Nat) :
    List Nat → Context → Context × Option String
  | [], ctx => (ctx, none)
  | i :: rest, ctx =>
    match runWorker env instrs n i ctx with
    | (c, some e) => (c, some e)
    | (c, none) => workersLoop env instrs n rest c

/-- The worker count used for fan-out. -/
def workersRun (ctx : Context) : Nat :=
  clampNumSubagents (getKey ctx.collected_data "num_subagents")

/-- `_conducting_research`. -/
def conductResearch (env : AgentEnv) (ctx : Context) : Context × Option String :=
  let n := workersRun ctx
  let instrs := instrsOf (getKey ctx.collected_data "subagent_instructions")
  workersLoop env instrs n (List.range n) ctx

/-! ## Report phase (`LLMAgent._generate_final_report`) -/

/-- `_generate_final_report`: on success, assemble the report with the
deduplicated flattening of all step sources and the analysis block values
(defaulted when the analysis key is absent); any raise — a failing or
empty LLM response, or an analysis value that is not an object — yields
the degraded error report with confidence 0.0. -/
def generateFinalReport (env : AgentEnv) (ctx : Context) : ResearchReport :=
  let degraded : ResearchReport :=
    { query := ctx.original_query
      executive_summary := "Error generating report"
      detailed_findings := ctx.collected_data
      recommendations := .arr []
      sources := []
      research_steps := ctx.research_steps
      confidence_score := .float 0
      limitations := .arr [.str "Failed to generate complete report"] }
  match env.reportResp ctx with
  | .raised _ => degraded
  | .noContent => degraded
  | .content s =>
    let report_content := s.trim
    let all_sources := ((ctx.research_steps.map fun st => st.sources).flatten).dedup
    let mkReport : List (String × JValue) → ResearchReport := fun kv =>
      { query := ctx.original_query
        executive_summary := report_content
        detailed_findings := ctx.collected_data
        recommendations := (jLookup kv "recommendations").getD (.arr [])
        sources := all_sources
        research_steps := ctx.research_steps
        confidence_score := (jLookup kv "confidence_score").getD (.float (7 / 10))
        limitations := (jLookup kv "limitations").getD (.arr []) }
    match getKey ctx.collected_data "analysis" with
    | some (.json (.obj kv)) => mkReport kv
    | none => mkReport []
    | some _ => degraded

/-! ## The refinement counter

`_analyse_findings` re-runs the whole pipeline recursively; its recursion
is controlled by `collected_data["refinement_count"]`.  To define that
recursion we first prove that the clarification and research phases never
touch this key. -/

/-- `collected_data.get("refinement_count", 0)`.  The key is written only
by the analysis phase, always as an `int`. -/
def getRC (cd : List (String × CDValue)) : Int :=
  match getKey cd "refinement_count" with
  | some (.json (.int n)) => n
  | _ => 0

theorem getKey_setKey_eq (cd : List (String × CDValue)) (k : String) (v : CDValue) :
    getKey (setKey cd k v) k = some v := by
  induction cd with
  | nil => simp [setKey, getKey]
  | cons h t ih =>
    by_cases hk : h.1 = k
    · simp [setKey, getKey, hk]
    · simp [setKey, getKey, hk, ih]

theorem getKey_setKey_ne (cd : List (String × CDValue)) (k k' : String) (v : CDValue)
    (h : ¬ k' = k) : getKey (setKey cd k' v) k = getKey cd k := by
  induction cd with
  | nil => simp [setKey, getKey, h]
  | cons hd t ih =>
    by_cases hk : hd.1 = k'
    · simp [setKey, getKey, hk, h]
    · by_cases hk2 : hd.1 = k
      · simp [setKey, getKey, hk, hk2, Ne.symm h]
      · simp [setKey, getKey, hk, hk2, ih]

theorem except_bind_ok {α β : Type} (x : Except String α) (f : α → Except String β)
    (b : β) (h : (x >>= f) = .ok b) : ∃ a, x = .ok a ∧ f a = .ok b := by
  cases x with
  | error e => simp [Bind.bind, Except.bind] at h
  | ok a => exact ⟨a, rfl, by simpa [Bind.bind, Except.bind] using h⟩

/-- A string starting with a character other than the first character of
`t` is different from `t`. -/
theorem append_ne_of_head (p s t : String) (c : Char) (hc : p.data.head? = some c)
    (ht : t.data.head? ≠ some c) : ¬ (p ++ s = t) := by
  intro he
  apply ht
  rw [← he, String.data_append]
  cases hd : p.data with
  | nil => rw [hd] at hc; simp at hc
  | cons a l =>
    rw [hd] at hc
    simpa using hc

@[simp] theorem ne_rc_pokemon (s : String) : ("pokemon_" ++ s = "refinement_count") = False :=
  eq_false (append_ne_of_head _ _ _ 'p' rfl (by decide))

@[simp] theorem ne_rc_pokemon_id (s : String) :
    ("pokemon_id_" ++ s = "refinement_count") = False :=
  eq_false (append_ne_of_head _ _ _ 'p' rfl (by decide))

@[simp] theorem ne_rc_pokemon_type (s : String) :
    ("pokemon_type_" ++ s = "refinement_count") = False :=
  eq_false (append_ne_of_head _ _ _ 'p' rfl (by decide))

@[simp] theorem ne_rc_search (s : String) : ("search_" ++ s = "refinement_count") = False :=
  eq_false (append_ne_of_head _ _ _ 's' rfl (by decide))

@[simp] theorem ne_rc_evolution (s : String) :
    ("evolution_chain_" ++ s = "refinement_count") = False :=
  eq_false (append_ne_of_head _ _ _ 'e' rfl (by decide))

@[simp] theorem ne_rc_description (s : String) :
    ("description_" ++ s = "refinement_count") = False :=
  eq_false (append_ne_of_head _ _ _ 'd' rfl (by decide))

@[simp] theorem ne_rc_generation (s : String) :
    ("generation_" ++ s = "refinement_count") = False :=
  eq_false (append_ne_of_head _ _ _ 'g' rfl (by decide))

@[simp] theorem ne_rc_all_pokemon (s : String) :
    ("all_pokemon_" ++ s = "refinement_count") = False :=
  eq_false (append_ne_of_head _ _ _ 'a' rfl (by decide))

@[simp] theorem ne_rc_ability (s : String) : ("ability_" ++ s = "refinement_count") = False :=
  eq_false (append_ne_of_head _ _ _ 'a' rfl (by decide))

@[simp] theorem ne_rc_web_data (s : String) :
    ("web_data_" ++ s = "refinement_count") = False :=
  eq_false (append_ne_of_head _ _ _ 'w' rfl (by decide))

@[simp] theorem ne_rc_subagent (s : String) :
    ("subagent_" ++ s = "refinement_count") = False :=
  eq_false (append_ne_of_head _ _ _ 's' rfl (by decide))

@[simp] theorem rckey_appendStep (ctx : Context) (s : ResearchStep) (k : String) :
    getKey (appendStep ctx s).collected_data k = getKey ctx.collected_data k := rfl

theorem rckey_setCD (ctx : Context) (k : String) (v : CDValue)
    (h : ¬ k = "refinement_count") :
    getKey (setCD ctx k v).collected_data "refinement_count"
      = getKey ctx.collected_data "refinement_count" :=
  getKey_setKey_ne _ _ _ _ h

theorem rckey_researchPokemonApi (env : AgentEnv) (v : JValue) (ctx : Context) :
    getKey (researchPokemonApi env v ctx).collected_data "refinement_count"
      = getKey ctx.collected_data "refinement_count" := by
  unfold researchPokemonApi
  cases v <;> simp
  case str nm =>
    cases get_pokemon_by_name env.poke nm <;>
      simp [rckey_setCD]

theorem rckey_researchPokemonWeb (env : AgentEnv) (v : JValue) (ctx : Context) :
    getKey (researchPokemonWeb env v ctx).collected_data "refinement_count"
      = getKey ctx.collected_data "refinement_count" := by
  unfold researchPokemonWeb
  cases env.webInfo (pyStr v) <;> simp [rckey_setCD]

theorem rckey_researchTrainingInfo (env : AgentEnv) (ctx : Context) :
    getKey (researchTrainingInfo env ctx).collected_data "refinement_count"
      = getKey ctx.collected_data "refinement_count" := by
  unfold researchTrainingInfo
  simp [rckey_setCD]

theorem rckey_researchUniquePokemon (env : AgentEnv) (ctx : Context) :
    getKey (researchUniquePokemon env ctx).collected_data "refinement_count"
      = getKey ctx.collected_data "refinement_count" := by
  unfold researchUniquePokemon
  simp [rckey_setCD]

/-- Any postcondition satisfied by the no-op context and by every
successful branch action holds after `argTruthy`. -/
theorem argTruthy_post (P : Context → Prop) (args : JValue) (key : String) (ctx : Context)
    (act : JValue → Except String Context) (ctx' : Context)
    (hctx : P ctx) (hact : ∀ v c', act v = .ok c' → P c')
    (h : argTruthy args key ctx act = .ok ctx') : P ctx' := by
  unfold argTruthy at h
  cases args <;> simp [pyGet, Bind.bind, Except.bind] at h
  case obj kv =>
    split at h
    · split at h
      · exact hact _ _ h
      · cases Except.ok.inj h; exact hctx
    · cases Except.ok.inj h; exact hctx

theorem rckey_act_name (env : AgentEnv) (ctx : Context) (v : JValue) (c' : Context)
    (h : act_get_pokemon_by_name env ctx v = .ok c') :
    getKey c'.collected_data "refinement_count"
      = getKey ctx.collected_data "refinement_count" := by
  unfold act_get_pokemon_by_name at h
  cases v <;> simp [asStr, Bind.bind, Except.bind] at h
  case str s =>
    split at h
    · cases Except.ok.inj h; simp [rckey_setCD]
    · cases h

theorem rckey_act_id (env : AgentEnv) (ctx : Context) (v : JValue) (c' : Context)
    (h : act_get_pokemon_by_id env ctx v = .ok c') :
    getKey c'.collected_data "refinement_count"
      = getKey ctx.collected_data "refinement_count" := by
  unfold act_get_pokemon_by_id at h
  split at h
  · cases Except.ok.inj h; simp [rckey_setCD]
  · cases h

theorem rckey_act_type (env : AgentEnv) (ctx : Context) (v : JValue) (c' : Context)
    (h : act_get_pokemon_by_type env ctx v = .ok c') :
    getKey c'.collected_data "refinement_count"
      = getKey ctx.collected_data "refinement_count" := by
  unfold act_get_pokemon_by_type at h
  cases v <;> simp [asStr, Bind.bind, Except.bind] at h
  case str s => cases h; simp [rckey_setCD]

theorem rckey_act_search (env : AgentEnv) (ctx : Context) (v : JValue) (c' : Context)
    (h : act_search_pokemon env ctx v = .ok c') :
    getKey c'.collected_data "refinement_count"
      = getKey ctx.collected_data "refinement_count" := by
  unfold act_search_pokemon at h
  cases v <;> simp [asStr, Bind.bind, Except.bind] at h
  case str s => cases h; simp [rckey_setCD]

theorem rckey_act_evolution (env : AgentEnv) (ctx : Context) (v : JValue) (c' : Context)
    (h : act_get_evolution_chain env ctx v = .ok c') :
    getKey c'.collected_data "refinement_count"
      = getKey ctx.collected_data "refinement_count" := by
  unfold act_get_evolution_chain at h
  cases v <;> simp [asStr, Bind.bind, Except.bind] at h
  case str s => cases h; simp [rckey_setCD]

theorem rckey_act_description (env : AgentEnv) (ctx : Context) (v : JValue) (c' : Context)
    (h : act_get_pokemon_description env ctx v = .ok c') :
    getKey c'.collected_data "refinement_count"
      = getKey ctx.collected_data "refinement_count" := by
  unfold act_get_pokemon_description at h
  cases v <;> simp [asStr, Bind.bind, Except.bind] at h
  case str s => cases h; simp [rckey_setCD]

theorem rckey_act_generation (env : AgentEnv) (ctx : Context) (v : JValue) (c' : Context)
    (h : act_get_generation_info env ctx v = .ok c') :
    getKey c'.collected_data "refinement_count"
      = getKey ctx.collected_data "refinement_count" := by
  unfold act_get_generation_info at h
  cases v <;> simp [asStr, Bind.bind, Except.bind] at h
  case str s => cases h; simp [rckey_setCD]

theorem rckey_act_ability (env : AgentEnv) (ctx : Context) (v : JValue) (c' : Context)
    (h : act_fetch_pokemon_ability env ctx v = .ok c') :
    getKey c'.collected_data "refinement_count"
      = getKey ctx.collected_data "refinement_count" := by
  unfold act_fetch_pokemon_ability at h
  cases v <;> simp [asStr, Bind.bind, Except.bind] at h
  case str s =>
    cases hf : fetch_pokemon_ability env.poke s with
    | error e => rw [hf] at h; simp [Bind.bind, Except.bind] at h
    | ok j =>
      rw [hf] at h
      simp only [Bind.bind, Except.bind, Except.ok.injEq] at h
      cases h; simp [rckey_setCD]

theorem rckey_dispatch_fetch_all (env : AgentEnv) (ctx : Context) (args : JValue)
    (c' : Context) (h : dispatch_fetch_all env ctx args = .ok c') :
    getKey c'.collected_data "refinement_count"
      = getKey ctx.collected_data "refinement_count" := by
  unfold dispatch_fetch_all at h
  obtain ⟨limit, -, h⟩ := except_bind_ok _ _ _ h
  obtain ⟨offset, -, h⟩ := except_bind_ok _ _ _ h
  obtain ⟨j, -, h⟩ := except_bind_ok _ _ _ h
  obtain ⟨keys, -, h⟩ := except_bind_ok _ _ _ h
  cases Except.ok.inj h
  apply rckey_setCD
  intro he
  rw [String.append_assoc, String.append_assoc] at he
  exact append_ne_of_head "all_pokemon_" _ _ 'a' rfl (by decide) he

theorem rckey_tryDispatch (env : AgentEnv) (ctx : Context) (fname : String) (args : JValue)
    (ctx' : Context) (h : tryDispatch env ctx fname args = .ok ctx') :
    getKey ctx'.collected_data "refinement_count"
      = getKey ctx.collected_data "refinement_count" := by
  unfold tryDispatch at h
  by_cases h1 : fname = "get_pokemon_by_name"
  · rw [if_pos h1] at h
    exact argTruthy_post (fun c => getKey c.collected_data "refinement_count"
        = getKey ctx.collected_data "refinement_count") _ _ _ _ _ rfl (rckey_act_name env ctx) h
  rw [if_neg h1] at h
  by_cases h2 : fname = "get_pokemon_by_id"
  · rw [if_pos h2] at h
    exact argTruthy_post (fun c => getKey c.collected_data "refinement_count"
        = getKey ctx.collected_data "refinement_count") _ _ _ _ _ rfl (rckey_act_id env ctx) h
  rw [if_neg h2] at h
  by_cases h3 : fname = "get_pokemon_by_type"
  · rw [if_pos h3] at h
    exact argTruthy_post (fun c => getKey c.collected_data "refinement_count"
        = getKey ctx.collected_data "refinement_count") _ _ _ _ _ rfl (rckey_act_type env ctx) h
  rw [if_neg h3] at h
  by_cases h4 : fname = "search_pokemon"
  · rw [if_pos h4] at h
    exact argTruthy_post (fun c => getKey c.collected_data "refinement_count"
        = getKey ctx.collected_data "refinement_count") _ _ _ _ _ rfl (rckey_act_search env ctx) h
  rw [if_neg h4] at h
  by_cases h5 : fname = "get_evolution_chain"
  · rw [if_pos h5] at h
    exact argTruthy_post (fun c => getKey c.collected_data "refinement_count"
        = getKey ctx.collected_data "refinement_count") _ _ _ _ _ rfl (rckey_act_evolution env ctx) h
  rw [if_neg h5] at h
  by_cases h6 : fname = "get_pokemon_description"
  · rw [if_pos h6] at h
    exact argTruthy_post (fun c => getKey c.collected_data "refinement_count"
        = getKey ctx.collected_data "refinement_count") _ _ _ _ _ rfl (rckey_act_description env ctx) h
  rw [if_neg h6] at h
  by_cases h7 : fname = "get_all_types"
  · rw [if_pos h7] at h
    cases Except.ok.inj h
    exact rckey_setCD _ _ _ (by decide)
  rw [if_neg h7] at h
  by_cases h8 : fname = "get_generation_info"
  · rw [if_pos h8] at h
    exact argTruthy_post (fun c => getKey c.collected_data "refinement_count"
        = getKey ctx.collected_data "refinement_count") _ _ _ _ _ rfl (rckey_act_generation env ctx) h
  rw [if_neg h8] at h
  by_cases h9 : fname = "fetch_all_pokemon"
  · rw [if_pos h9] at h
    exact rckey_dispatch_fetch_all env ctx args ctx' h
  rw [if_neg h9] at h
  by_cases h10 : fname = "fetch_pokemon_ability"
  · rw [if_pos h10] at h
    exact argTruthy_post (fun c => getKey c.collected_data "refinement_count"
        = getKey ctx.collected_data "refinement_count") _ _ _ _ _ rfl (rckey_act_ability env ctx) h
  rw [if_neg h10] at h
  by_cases h11 : fname = "_research_pokemon_api"
  · rw [if_pos h11] at h
    exact argTruthy_post (fun c => getKey c.collected_data "refinement_count"
        = getKey ctx.collected_data "refinement_count") _ _ _ _ _ rfl
      (fun v c' hv => by cases Except.ok.inj hv; exact rckey_researchPokemonApi env v ctx) h
  rw [if_neg h11] at h
  by_cases h12 : fname = "_research_pokemon_web"
  · rw [if_pos h12] at h
    exact argTruthy_post (fun c => getKey c.collected_data "refinement_count"
        = getKey ctx.collected_data "refinement_count") _ _ _ _ _ rfl
      (fun v c' hv => by cases Except.ok.inj hv; exact rckey_researchPokemonWeb env v ctx) h
  rw [if_neg h12] at h
  by_cases h13 : fname = "_research_training_info"
  · rw [if_pos h13] at h
    cases Except.ok.inj h
    exact rckey_researchTrainingInfo env ctx
  rw [if_neg h13] at h
  by_cases h14 : fname = "_research_unique_pokemon"
  · rw [if_pos h14] at h
    cases Except.ok.inj h
    exact rckey_researchUniquePokemon env ctx
  rw [if_neg h14] at h
  cases Except.ok.inj h
  rfl

theorem rckey_execOne (env : AgentEnv) (i : Nat) (ctx : Context) (tc : ToolCall) :
    getKey (execOne env i ctx tc).collected_data "refinement_count"
      = getKey ctx.collected_data "refinement_count" := by
  unfold execOne
  cases hp : parseArgs tc.args with
  | error e => simp [Bind.bind, Except.bind, hp]
  | ok args =>
    cases ht : tryDispatch env ctx tc.name args with
    | error e => simp [Bind.bind, Except.bind, hp, ht]
    | ok c => simpa [Bind.bind, Except.bind, hp, ht] using rckey_tryDispatch _ _ _ _ _ ht

theorem preserve_foldl {α : Type} (g : Context → Option CDValue) (f : Context → α → Context)
    (h : ∀ c a, g (f c a) = g c) : ∀ (l : List α) (c : Context), g (l.foldl f c) = g c := by
  intro l
  induction l with
  | nil => intro c; rfl
  | cons a t ih => intro c; rw [List.foldl_cons, ih, h]

theorem rckey_execBatch (env : AgentEnv) (i : Nat) (tcs : List ToolCall) (ctx : Context) :
    getKey (execBatch env i tcs ctx).collected_data "refinement_count"
      = getKey ctx.collected_data "refinement_count" :=
  preserve_foldl (fun c => getKey c.collected_data "refinement_count") _
    (fun c tc => rckey_execOne env i c tc) tcs ctx

theorem rckey_batchReplay (env : AgentEnv) (i : Nat) (toolCalls : Option (List ToolCall))
    (ctx : Context) :
    getKey (batchReplay env i toolCalls ctx).collected_data "refinement_count"
      = getKey ctx.collected_data "refinement_count" := by
  unfold batchReplay
  split
  · exact preserve_foldl (fun c2 => getKey c2.collected_data "refinement_count") _
      (fun c2 _ => rckey_execBatch env i _ c2) _ ctx
  · rfl

theorem rckey_workerSynthesis (env : AgentEnv) (i : Nat) (ctx : Context) :
    getKey (workerSynthesis env i ctx).collected_data "refinement_count"
      = getKey ctx.collected_data "refinement_count" := by
  unfold workerSynthesis
  cases env.research2 ctx i with
  | raised e => rfl
  | msg c2 tcs =>
    cases c2 with
    | none => rfl
    | some s =>
      rw [rckey_appendStep]
      apply rckey_setCD
      intro he
      rw [String.append_assoc] at he
      exact append_ne_of_head "subagent_" _ _ 's' rfl (by decide) he

theorem rckey_runWorkerAfterBatch (env : AgentEnv) (i : Nat) (content : Option String)
    (toolCalls : Option (List ToolCall)) (ctx : Context) :
    getKey (runWorkerAfterBatch env i content toolCalls ctx).1.collected_data
        "refinement_count"
      = getKey ctx.collected_data "refinement_count" := by
  unfold runWorkerAfterBatch
  split
  · rfl
  · cases toolCalls with
    | none => simp [execFunctionCalls]
    | some l =>
      simp only [execFunctionCalls]
      rw [rckey_workerSynthesis, rckey_execBatch, rckey_appendStep]

theorem rckey_runWorker (env : AgentEnv) (instrs : JValue) (n i : Nat) (ctx : Context) :
    getKey (runWorker env instrs n i ctx).1.collected_data "refinement_count"
      = getKey ctx.collected_data "refinement_count" := by
  unfold runWorker
  cases workerTask instrs i with
  | error e => rfl
  | ok task =>
    simp only []
    split
    · rfl
    · split
      · rfl
      · cases env.research1 ctx i with
        | raised e => rfl
        | msg content toolCalls =>
          rw [rckey_runWorkerAfterBatch, rckey_batchReplay]

theorem rckey_workersLoop (env : AgentEnv) (instrs : JValue) (n : Nat) (l : List Nat)
    (ctx : Context) :
    getKey (workersLoop env instrs n l ctx).1.collected_data "refinement_count"
      = getKey ctx.collected_data "refinement_count" := by
  induction l generalizing ctx with
  | nil => rfl
  | cons i rest ih =>
    unfold workersLoop
    cases hw : runWorker env instrs n i ctx with
    | mk c exc =>
      cases exc with
      | none =>
        simp only []
        rw [ih c]
        have := rckey_runWorker env instrs n i ctx
        rw [hw] at this
        exact this
      | some e =>
        simp only []
        have := rckey_runWorker env instrs n i ctx
        rw [hw] at this
        exact this

theorem rckey_conductResearch (env : AgentEnv) (ctx : Context) :
    getKey (conductResearch env ctx).1.collected_data "refinement_count"
      = getKey ctx.collected_data "refinement_count" :=
  rckey_workersLoop env _ _ _ ctx

theorem rckey_clarifyGoals (env : AgentEnv) (ctx : Context) :
    getKey (clarifyGoals env ctx).1.collected_data "refinement_count"
      = getKey ctx.collected_data "refinement_count" := by
  unfold clarifyGoals
  cases env.clarifyResp ctx <;> simp [rckey_setCD]

theorem getRC_conductResearch (env : AgentEnv) (ctx : Context) :
    getRC (conductResearch env ctx).1.collected_data = getRC ctx.collected_data := by
  unfold getRC
  rw [rckey_conductResearch]

theorem getRC_clarifyGoals (env : AgentEnv) (ctx : Context) :
    getRC (clarifyGoals env ctx).1.collected_data = getRC ctx.collected_data := by
  unfold getRC
  rw [rckey_clarifyGoals]

theorem getRC_setRC (ctx : Context) (m : Int) :
    getRC (setCD ctx "refinement_count" (.json (.int m))).collected_data = m := by
  unfold getRC setCD
  rw [getKey_setKey_eq]

/-! ## Analysis phase (`LLMAgent._analyse_findings`) -/

/-- Lines 274-277: replace the query by `refined_query` (defaulting to the
current query), persist it, and persist the incremented refinement
counter. -/
def refineStep (ctx : Context) (data : List (String × JValue)) : Context :=
  let refined_query : JValue := (jLookup data "refined_query").getD (.str ctx.original_query)
  let rc := getRC ctx.collected_data
  let ctx := { ctx with original_query := pyStr refined_query }
  let ctx := setCD ctx "refined_query" (.json refined_query)
  setCD ctx "refinement_count" (.json (.int (rc + 1)))

theorem getRC_refineStep (ctx : Context) (data : List (String × JValue)) :
    getRC (refineStep ctx data).collected_data = getRC ctx.collected_data + 1 := by
  unfold refineStep
  exact getRC_setRC _ _

theorem getRC_setAnalysis (ctx : Context) (v : CDValue) :
    getRC (setCD ctx "analysis" v).collected_data = getRC ctx.collected_data := by
  unfold getRC
  rw [rckey_setCD _ _ _ (by decide)]

/-- The step appended at line 284. -/
def analysisStep (data : List (String × JValue)) : ResearchStep :=
  { step_type := .ANALYSIS
    description :=
      "Analysed all research findings, ran multiple research cycles if needed and generated insights"
    output_data := some (data.map fun kv => (kv.1, .json kv.2)) }

/-- `_analyse_findings`.  Result: final context, an escaping exception, and
the number of analysis-oracle invocations performed in this call tree.

The user prompt is built before the `try`, so a non-joinable
`clarified_goals` or a non-serializable scratchpad raises out of the phase
(exception component, zero oracle calls).  Inside the `try`, every raise —
a failing call, missing content, malformed JSON, or a raise out of the
nested re-run of the pipeline — is caught at line 291 and only logged: no
step is appended and the context keeps the mutations made so far.  When the
oracle result requests further research and the persisted counter is below
2, the counter is incremented and the whole Clarify-Research-Analyse
sequence re-runs recursively; the `ANALYSIS` step is appended after the
recursion returns. -/
def analyseFindings (env : AgentEnv) (ctx : Context) : Context × Option String × Nat :=
  if ¬ (pyJoinable ctx.clarified_goals ∧ cdDumpable ctx.collected_data) then
    (ctx, some "TypeError: analysis prompt construction failed", 0)
  else
    match env.analysisResp ctx with
    | .raised _ => (ctx, none, 1)
    | .noContent => (ctx, none, 1)
    | .malformed _ => (ctx, none, 1)
    | .ok data =>
      if hguard : pyTruthy ((jLookup data "further_research_needed").getD (.bool false)) = true
          ∧ getRC (setCD ctx "analysis" (.json (.obj data))).collected_data < 2 then
        match hc : clarifyGoals env (refineStep (setCD ctx "analysis" (.json (.obj data))) data) with
        | (ctx3, some _) => (ctx3, none, 1)
        | (ctx3, none) =>
          match hr : conductResearch env ctx3 with
          | (ctx4, some _) => (ctx4, none, 1)
          | (ctx4, none) =>
            match analyseFindings env ctx4 with
            | (ctx5, some _, k) => (ctx5, none, 1 + k)
            | (ctx5, none, k) => (appendStep ctx5 (analysisStep data), none, 1 + k)
      else
        (appendStep (setCD ctx "analysis" (.json (.obj data))) (analysisStep data), none, 1)
termination_by (2 - getRC ctx.collected_data).toNat
decreasing_by
  have e1 : getRC ctx4.collected_data = getRC ctx.collected_data + 1 := by
    have h3 : getRC ctx4.collected_data = getRC ctx3.collected_data := by
      have := getRC_conductResearch env ctx3
      rw [hr] at this
      exact this
    have h2 : getRC ctx3.collected_data
        = getRC (refineStep (setCD ctx "analysis" (.json (.obj data))) data).collected_data := by
      have := getRC_clarifyGoals env (refineStep (setCD ctx "analysis" (.json (.obj data))) data)
      rw [hc] at this
      exact this
    rw [h3, h2, getRC_refineStep, getRC_setAnalysis]
  have e2 : getRC ctx.collected_data < 2 := by
    have := hguard.2
    rwa [getRC_setAnalysis] at this
  simp only [e1]
  omega

/-! ## The public entry point (`LLMAgent.run`) -/

/-- `run(query)`: the four phases in sequence.  `Except.error` is an
exception escaping to the caller of `run` — the source has no handler
around the phases. -/
def run (env : AgentEnv) (query : String) : Except String ResearchReport :=
  match clarifyGoals env { original_query := query } with
  | (_, some e) => .error e
  | (c1, none) =>
    match conductResearch env c1 with
    | (_, some e) => .error e
    | (c2, none) =>
      match analyseFindings env c2 with
      | (_, some e, _) => .error e
      | (c3, none, _) => .ok (generateFinalReport env c3)

/-- The number of analysis-oracle invocations a run performs. -/
def runAnalyzeCalls (env : AgentEnv) (query : String) : Nat :=
  match clarifyGoals env { original_query := query } with
  | (_, some _) => 0
  | (c1, none) =>
    match conductResearch env c1 with
    | (_, some _) => 0
    | (c2, none) => (analyseFindings env c2).2.2

/-! ## Ledger predicates (`models.ResearchStep` invariant) -/

/-- The `ResearchStep` invariant: a failed step carries an error message. -/
def StepOK (s : ResearchStep) : Prop := s.success = false → s.error_message ≠ none

/-- Every step of the ledger satisfies the invariant. -/
def LedgerOK (l : List ResearchStep) : Prop := ∀ s ∈ l, StepOK s

/-- `l'` extends `l` by appending zero or more invariant-satisfying steps;
no existing entry is changed or removed. -/
def LedgerExt (l l' : List ResearchStep) : Prop :=
  ∃ t, l' = l ++ t ∧ ∀ s ∈ t, StepOK s

/-- `ExtOK ctx ctx'`: the ledger of `ctx'` is that of `ctx` with only
appends of invariant-satisfying steps. -/
def ExtOK (ctx ctx' : Context) : Prop := LedgerExt ctx.research_steps ctx'.research_steps

/-! ## Concrete environments for witnesses and counterexamples -/

/-- A fully unavailable upstream: every `_make_request` fails (`none`), and
every raw `requests.get` raises a connection error. -/
def pokeEnvNone : PokeEnv :=
  { pokemonEndpoint := fun _ => none
    typeEndpoint := fun _ => none
    allPokemon := none
    speciesEndpoint := fun _ => none
    evoChainEndpoint := fun _ => none
    typeIndex := none
    generationEndpoint := fun _ => none
    fetchAllResp := fun _ _ => .error "requests.exceptions.ConnectionError"
    abilityResp := fun _ => .error "requests.exceptions.ConnectionError" }

/-- An upstream whose raw `requests` endpoints answer HTTP 404. -/
def poke404 : PokeEnv :=
  { pokeEnvNone with
    fetchAllResp := fun _ _ => .ok { status := 404, body := .nul }
    abilityResp := fun _ => .ok { status := 404, body := .nul } }

/-- A sample upstream record (height 4 dm, weight 60 hg). -/
def rawPikachu : RawPokemon :=
  { id := 25
    name := "pikachu"
    types := ["electric"]
    height := 4
    weight := 60
    base_experience := 112
    abilities := ["static"]
    stats := [("speed", 90)]
    moves := ["thunder-shock", "tail-whip"]
    front_default := .str "sprites/25.png"
    back_default := .nul
    front_shiny := .nul
    back_shiny := .nul }

/-- An upstream knowing pikachu and the eevee evolution chain. -/
def pokeEnvSample : PokeEnv :=
  { pokeEnvNone with
    pokemonEndpoint := fun e => if e = "pokemon/pikachu" then some rawPikachu else none
    speciesEndpoint := fun e =>
      if e = "pokemon-species/eevee" then
        some { evolution_chain_url := some "https://pokeapi.co/api/v2/evolution-chain/67/"
               flavor_text_entries := [{ language := "en", flavor_text := "Evolves." }] }
      else none
    evoChainEndpoint := fun i =>
      if i = "67" then some (.node "eevee" [.node "vaporeon" []]) else none }

/-- A minimal agent environment: offline adapters, an LLM that returns no
usable content anywhere. -/
def envTriv : AgentEnv :=
  { poke := pokeEnvNone
    webInfo := fun _ => .error "offline"
    clarifyResp := fun _ => .noContent
    research1 := fun _ _ => .raised "offline"
    research2 := fun _ _ => .raised "offline"
    analysisResp := fun _ => .noContent
    reportResp := fun _ => .noContent }

/-- The clarification LLM call itself raises (for instance a network
error): the failure mode of claim C1. -/
def envClarifyRaises : AgentEnv :=
  { envTriv with clarifyResp := fun _ => .raised "APIConnectionError" }

/-- Every analysis response parses and requests further research. -/
def envAlwaysRefine : AgentEnv :=
  { envTriv with analysisResp := fun _ => .ok [("further_research_needed", .bool true)] }

/-- Working data adapters for the dispatcher-isolation scenario. -/
def envSample : AgentEnv := { envTriv with poke := pokeEnvSample }

/-- A fresh run context. -/
def ctx0 : Context := { original_query := "best bug-type team" }

/-- A context whose clarification produced a non-integer worker count. -/
def ctxBadWorkers : Context := setCD ctx0 "num_subagents" (.json (.str "two"))

/-- A ledger carrying sources `A`, `A`, `B` across two steps. -/
def ctxSourcesAAB : Context :=
  { original_query := "q"
    research_steps :=
      [{ step_type := .SYNTHESIS, description := "s1", sources := ["A", "A"] },
       { step_type := .SYNTHESIS, description := "s2", sources := ["B"] }] }

/-- A report writer that answers with narrative text. -/
def envReportOk : AgentEnv := { envTriv with reportResp := fun _ => .content "narrative" }

/-- The degraded report `run envTriv` produces: clarification fails softly,
the single default worker fails in step 1, analysis returns no content, and
report generation degrades. -/
def reportTriv : ResearchReport :=
  { query := "best bug-type team"
    executive_summary := "Error generating report"
    detailed_findings := []
    recommendations := .arr []
    sources := []
    research_steps :=
      [failClarStep "LLM returned no clarification goal content",
       failWorkerStep 0 "step 1 " "offline"]
    confidence_score := .float 0
    limitations := .arr [.str "Failed to generate complete report"] }

/-! ## Claim theorems -/

/-- C10: for every integer id and every upstream state, the adapter's id
lookup returns exactly the name lookup applied to the decimal string of the
id, so id lookup inherits every behavior of name lookup. -/
theorem c10_id_lookup_delegates_to_name_lookup :
    ∀ (env : PokeEnv) (n : Int), get_pokemon_by_id env n = get_pokemon_by_name env (toString n) :=
  fun _ _ => rfl

/-- C8: the name lookup is a pure function of the upstream response — two
calls with the same input and unchanged upstream yield identical normalized
records — and normalization divides the raw height and weight by 10 to
obtain meters and kilograms. -/
theorem c8_name_lookup_deterministic_normalization (env : PokeEnv) (name : String)
    (raw : RawPokemon) (h : env.pokemonEndpoint ("pokemon/" ++ (pyLower name)) = some raw) :
    get_pokemon_by_name env name = some (normalizePokemon raw) ∧
    (∀ r1 r2 : Option PokemonData, r1 = get_pokemon_by_name env name →
      r2 = get_pokemon_by_name env name → r1 = r2) ∧
    (normalizePokemon raw).height = (raw.height : ℚ) / 10 ∧
    (normalizePokemon raw).weight = (raw.weight : ℚ) / 10 := by
  refine ⟨?_, ?_, rfl, rfl⟩
  · unfold get_pokemon_by_name
    rw [h]
    rfl
  · intro r1 r2 h1 h2
    rw [h1, h2]

/-- C8 witness: the theorem applied to the sample upstream. -/
theorem c8_witness :
    get_pokemon_by_name pokeEnvSample "pikachu" = some (normalizePokemon rawPikachu) ∧
    (∀ r1 r2 : Option PokemonData, r1 = get_pokemon_by_name pokeEnvSample "pikachu" →
      r2 = get_pokemon_by_name pokeEnvSample "pikachu" → r1 = r2) ∧
    (normalizePokemon rawPikachu).height = ((rawPikachu.height : Int) : ℚ) / 10 ∧
    (normalizePokemon rawPikachu).weight = ((rawPikachu.weight : Int) : ℚ) / 10 :=
  c8_name_lookup_deterministic_normalization pokeEnvSample "pikachu" rawPikachu (by rfl)

/-- C1 (code bug): when the clarification LLM call itself raises, the
`except` handler of `_clarify_goals` reads the unassigned local `response`
(the debug print at line 93) and raises `UnboundLocalError`, which no
enclosing handler catches — `run` raises to its caller instead of
returning a degraded report. -/
theorem c1_run_raises_on_clarification_exception :
    run envClarifyRaises "best bug-type team"
      = .error "UnboundLocalError: cannot access local variable response" := rfl

/-- C3 counterexample: a non-200 upstream response does not degrade to an
empty result for the module-level fetch — `fetch_all_pokemon` calls
`raise_for_status()` and the `HTTPError` escapes to the caller. -/
theorem c3_counterexample_fetch_all_pokemon_raises_on_404 :
    fetch_all_pokemon poke404 (.int 100) (.int 0) = .error "HTTP Error 404" := rfl

/-- C3 amended: every `PokeAPIClient` method degrades a network failure,
timeout or non-200 response (a `none` answer of `_make_request`) to its
explicit not-found or empty result; but the module-level `fetch_all_pokemon`
and `fetch_pokemon_ability` instead propagate HTTP 4xx/5xx errors (via
`raise_for_status`) and network exceptions to their caller. -/
theorem c3_amended_client_degrades_module_fetches_raise :
    (∀ (env : PokeEnv) (name : String),
      env.pokemonEndpoint ("pokemon/" ++ (pyLower name)) = none →
      get_pokemon_by_name env name = none) ∧
    (∀ (env : PokeEnv) (t : String),
      env.typeEndpoint ("type/" ++ (pyLower t)) = none → get_pokemon_by_type env t = []) ∧
    (∀ (env : PokeEnv) (q : String), env.allPokemon = none → search_pokemon env q = []) ∧
    (∀ (env : PokeEnv) (n : String),
      env.speciesEndpoint ("pokemon-species/" ++ (pyLower n)) = none →
      get_evolution_chain env n = [] ∧ get_pokemon_description env n = none) ∧
    (∀ env : PokeEnv, env.typeIndex = none → get_all_types env = []) ∧
    (∀ (env : PokeEnv) (g : String),
      env.generationEndpoint ("generation/" ++ (pyLower g)) = none →
      get_generation_info env g = none) ∧
    (∀ (env : PokeEnv) (limit offset : JValue) (r : HttpResp),
      env.fetchAllResp limit offset = .ok r → 400 ≤ r.status →
      fetch_all_pokemon env limit offset = .error ("HTTP Error " ++ toString r.status)) ∧
    (∀ (env : PokeEnv) (limit offset : JValue) (e : String),
      env.fetchAllResp limit offset = .error e →
      fetch_all_pokemon env limit offset = .error e) ∧
    (∀ (env : PokeEnv) (a : String) (r : HttpResp),
      env.abilityResp (pyLower a) = .ok r → 400 ≤ r.status →
      fetch_pokemon_ability env a = .error ("HTTP Error " ++ toString r.status)) ∧
    (∀ (env : PokeEnv) (a : String) (e : String),
      env.abilityResp (pyLower a) = .error e → fetch_pokemon_ability env a = .error e) := by
  refine ⟨?_, ?_, ?_, ?_, ?_, ?_, ?_, ?_, ?_, ?_⟩
  · intro env name h
    unfold get_pokemon_by_name
    rw [h]
    rfl
  · intro env t h
    unfold get_pokemon_by_type
    rw [h]
  · intro env q h
    unfold search_pokemon
    rw [h]
  · intro env n h
    constructor
    · unfold get_evolution_chain
      rw [h]
    · unfold get_pokemon_description
      rw [h]
  · intro env h
    unfold get_all_types
    rw [h]
    rfl
  · intro env g h
    unfold get_generation_info
    rw [h]
  · intro env limit offset r h hs
    unfold fetch_all_pokemon
    rw [h]
    simp [Bind.bind, Except.bind, raise_for_status_json, hs]
  · intro env limit offset e h
    unfold fetch_all_pokemon
    rw [h]
    rfl
  · intro env a r h hs
    unfold fetch_pokemon_ability
    rw [h]
    simp [Bind.bind, Except.bind, raise_for_status_json, hs]
  · intro env a e h
    unfold fetch_pokemon_ability
    rw [h]
    rfl

/-- C3 witness: the amended theorem applied to concrete environments. -/
theorem c3_witness :
    get_pokemon_by_name pokeEnvNone "missingno" = none ∧
    fetch_pokemon_ability poke404 "overgrow"
      = .error ("HTTP Error " ++ toString (404 : Nat)) :=
  ⟨c3_amended_client_degrades_module_fetches_raise.1 pokeEnvNone "missingno" rfl,
   c3_amended_client_degrades_module_fetches_raise.2.2.2.2.2.2.2.2.1 poke404 "overgrow"
     { status := 404, body := .nul } rfl (by norm_num)⟩

/-- C4 counterexample: a malformed arguments string is not treated as an
empty argument set — the dispatcher records the call as a failed
`ResearchStep` and does not run the tool action, unlike the same call with
an actually empty argument object. -/
theorem c4_counterexample_malformed_args_recorded_as_failure :
    execOne envTriv 0 ctx0 { name := "get_all_types", args := .malformed "oops" }
      = appendStep ctx0
          { step_type := .SYNTHESIS
            description := "Failed research subagent 1 in executing function get_all_types"
            success := false
            error_message := some "json.loads failed: oops" } ∧
    getKey (execOne envTriv 0 ctx0
        { name := "get_all_types", args := .malformed "oops" }).collected_data "all_types"
      = none ∧
    execOne envTriv 0 ctx0 { name := "get_all_types", args := .parsed (.obj []) }
      = setCD ctx0 "all_types" (.json (.arr [])) :=
  ⟨rfl, rfl, rfl⟩

/-- C4 amended: only an absent or empty arguments string is treated as the
empty argument set; an arguments string that fails JSON parsing makes the
dispatcher record that call as one failed `ResearchStep` naming the tool,
and dispatch proceeds with the remaining calls of the batch. -/
theorem c4_amended_empty_args_default_malformed_args_fail :
    (∀ (env : AgentEnv) (i : Nat) (ctx : Context) (name : String),
      execOne env i ctx { name := name, args := .empty }
        = execOne env i ctx { name := name, args := .parsed (.obj []) }) ∧
    (∀ (env : AgentEnv) (i : Nat) (ctx : Context) (name s : String),
      execOne env i ctx { name := name, args := .malformed s }
        = appendStep ctx
            { step_type := .SYNTHESIS
              description := "Failed research subagent " ++ toString (i + 1) ++
                " in executing function " ++ name
              success := false
              error_message := some ("json.loads failed: " ++ s) }) ∧
    (∀ (env : AgentEnv) (i : Nat) (ctx : Context) (name s : String)
        (rest : List ToolCall),
      execBatch env i ({ name := name, args := .malformed s } :: rest) ctx
        = execBatch env i rest (appendStep ctx
            { step_type := .SYNTHESIS
              description := "Failed research subagent " ++ toString (i + 1) ++
                " in executing function " ++ name
              success := false
              error_message := some ("json.loads failed: " ++ s) })) :=
  ⟨fun _ _ _ _ => rfl, fun _ _ _ _ _ => rfl, fun _ _ _ _ _ _ => rfl⟩

/-- The claim C5 scenario: a batch of three tool calls whose second has
malformed arguments and raises inside the dispatcher. -/
def batch3 : List ToolCall :=
  [{ name := "get_pokemon_by_name", args := .parsed (.obj [("name", .str "pikachu")]) },
   { name := "get_pokemon_by_name", args := .malformed "not json" },
   { name := "get_evolution_chain", args := .parsed (.obj [("pokemon_name", .str "eevee")]) }]

/-- C5: per-call failure isolation in the dispatcher.  Dispatch folds over
the whole batch without short-circuiting; a raising call is caught
individually and recorded as exactly one failed step naming the failing
tool; and in the concrete 3-call batch whose 2nd call raises, the 1st and
3rd results are both present in collected data afterwards with exactly one
failed step recorded. -/
theorem c5_dispatcher_batch_isolation :
    (∀ (env : AgentEnv) (i : Nat) (xs ys : List ToolCall) (ctx : Context),
      execBatch env i (xs ++ ys) ctx = execBatch env i ys (execBatch env i xs ctx)) ∧
    (∀ (env : AgentEnv) (i : Nat) (ctx : Context) (tc : ToolCall) (e : String),
      (do let args ← parseArgs tc.args
          tryDispatch env ctx tc.name args : Except String Context) = .error e →
      execOne env i ctx tc = appendStep ctx
        { step_type := .SYNTHESIS
          description := "Failed research subagent " ++ toString (i + 1) ++
            " in executing function " ++ tc.name
          success := false
          error_message := some e }) ∧
    getKey (execBatch envSample 0 batch3 ctx0).collected_data "pokemon_pikachu"
      = some (.json (encodePokemon (normalizePokemon rawPikachu))) ∧
    getKey (execBatch envSample 0 batch3 ctx0).collected_data "evolution_chain_eevee"
      = some (.json (.arr [.str "eevee", .str "vaporeon"])) ∧
    (execBatch envSample 0 batch3 ctx0).research_steps
      = [{ step_type := .SYNTHESIS
           description := "Failed research subagent 1 in executing function get_pokemon_by_name"
           success := false
           error_message := some "json.loads failed: not json" }] := by
  refine ⟨?_, ?_, ?_, ?_, ?_⟩
  · intro env i xs ys ctx
    simp [execBatch, List.foldl_append]
  · intro env i ctx tc e h
    unfold execOne
    rw [h]
  · rfl
  · rfl
  · rfl

/-- C5 witness: the per-call isolation part applied to a concrete raising
call. -/
theorem c5_witness :
    execOne envSample 0 ctx0 { name := "fetch_pokemon_ability", args := .malformed "xx" }
      = appendStep ctx0
          { step_type := .SYNTHESIS
            description := "Failed research subagent " ++ toString (0 + 1) ++
              " in executing function " ++ "fetch_pokemon_ability"
            success := false
            error_message := some "json.loads failed: xx" } :=
  c5_dispatcher_batch_isolation.2.1 envSample 0 ctx0
    { name := "fetch_pokemon_ability", args := .malformed "xx" } "json.loads failed: xx"
    (by rfl)

/-- C6: the worker count is clamped to at least 1 before the research
fan-out — 0, -1 and non-integer counts all run exactly 1 worker — and a
worker index at or past the end of the supplied instruction list receives
the empty-string instruction instead of crashing. -/
theorem c6_worker_clamp_and_default_instruction :
    (∀ v : Option CDValue, 1 ≤ clampNumSubagents v) ∧
    clampNumSubagents (some (.json (.int 0))) = 1 ∧
    clampNumSubagents (some (.json (.int (-1)))) = 1 ∧
    (∀ v : JValue, (∀ n : Int, v ≠ .int n) → clampNumSubagents (some (.json v)) = 1) ∧
    (∀ (env : AgentEnv) (ctx : Context),
      conductResearch env ctx
        = workersLoop env (instrsOf (getKey ctx.collected_data "subagent_instructions"))
            (workersRun ctx) (List.range (workersRun ctx)) ctx) ∧
    (∀ (env : AgentEnv) (ctx : Context),
      getKey ctx.collected_data "num_subagents" = some (.json (.str "two")) →
      conductResearch env ctx
        = workersLoop env (instrsOf (getKey ctx.collected_data "subagent_instructions"))
            1 [0] ctx) ∧
    (∀ (xs : List JValue) (i : Nat), xs.length ≤ i →
      workerTask (.arr xs) i = .ok (.str "")) := by
  refine ⟨?_, rfl, rfl, ?_, ?_, ?_, ?_⟩
  · intro v
    cases v with
    | none => exact Nat.le_refl 1
    | some c =>
      cases c with
      | pokemonList ps => exact Nat.le_refl 1
      | json j =>
        cases j with
        | int n =>
          simp only [clampNumSubagents]
          split
          · exact Nat.le_refl 1
          · omega
        | nul => exact Nat.le_refl 1
        | bool b => exact Nat.le_refl 1
        | float q => exact Nat.le_refl 1
        | str s => exact Nat.le_refl 1
        | arr xs => exact Nat.le_refl 1
        | obj kv => exact Nat.le_refl 1
  · intro v hv
    cases v with
    | int n => exact absurd rfl (hv n)
    | nul => rfl
    | bool b => rfl
    | float q => rfl
    | str s => rfl
    | arr xs => rfl
    | obj kv => rfl
  · intro env ctx
    rfl
  · intro env ctx h
    have hw : workersRun ctx = 1 := by
      unfold workersRun
      rw [h]
      rfl
    simp only [conductResearch]
    rw [hw]
    rfl
  · intro xs i h
    unfold workerTask pyLen
    simp only [Bind.bind, Except.bind]
    rw [if_neg (by omega)]

/-- C6 witness: the theorem applied to concrete degenerate inputs. -/
theorem c6_witness :
    clampNumSubagents (some (.json (.str "two"))) = 1 ∧
    conductResearch envTriv ctxBadWorkers
      = workersLoop envTriv
          (instrsOf (getKey ctxBadWorkers.collected_data "subagent_instructions"))
          1 [0] ctxBadWorkers ∧
    workerTask (.arr []) 5 = .ok (.str "") :=
  ⟨c6_worker_clamp_and_default_instruction.2.2.2.1 (.str "two")
      (fun n h => JValue.noConfusion h),
   c6_worker_clamp_and_default_instruction.2.2.2.2.2.1 envTriv ctxBadWorkers (by rfl),
   c6_worker_clamp_and_default_instruction.2.2.2.2.2.2 [] 5 (by decide)⟩

/-- C7: when report generation succeeds, the report's source list is the
flattening of every step's source list with duplicates removed — each
element appears exactly once regardless of how many steps contributed it —
and on the concrete ledger with sources `A`, `A`, `B` the report holds
exactly one `A` and one `B`. -/
theorem c7_report_sources_deduplicated (env : AgentEnv) (ctx : Context) (s : String)
    (hrep : env.reportResp ctx = .content s)
    (hana : getKey ctx.collected_data "analysis" = none ∨
      ∃ kv, getKey ctx.collected_data "analysis" = some (.json (.obj kv))) :
    (generateFinalReport env ctx).sources
        = ((ctx.research_steps.map fun st => st.sources).flatten).dedup ∧
    (∀ x, x ∈ (generateFinalReport env ctx).sources ↔
      x ∈ (ctx.research_steps.map fun st => st.sources).flatten) ∧
    (generateFinalReport env ctx).sources.Nodup ∧
    (∀ x, ((generateFinalReport env ctx).sources).count x
        = if x ∈ (ctx.research_steps.map fun st => st.sources).flatten then 1 else 0) ∧
    (generateFinalReport envReportOk ctxSourcesAAB).sources.count "A" = 1 ∧
    (generateFinalReport envReportOk ctxSourcesAAB).sources.count "B" = 1 := by
  have hsrc : (generateFinalReport env ctx).sources
      = ((ctx.research_steps.map fun st => st.sources).flatten).dedup := by
    rcases hana with h | ⟨kv, h⟩ <;> simp only [generateFinalReport, hrep, h]
  refine ⟨hsrc, ?_, ?_, ?_, by decide, by decide⟩
  · intro x
    rw [hsrc]
    exact List.mem_dedup
  · rw [hsrc]
    exact List.nodup_dedup _
  · intro x
    rw [hsrc]
    exact List.count_dedup _ _

/-- C7 witness: the theorem applied to the `A`, `A`, `B` ledger. -/
theorem c7_witness :
    (generateFinalReport envReportOk ctxSourcesAAB).sources
        = ((ctxSourcesAAB.research_steps.map fun st => st.sources).flatten).dedup ∧
    (∀ x, x ∈ (generateFinalReport envReportOk ctxSourcesAAB).sources ↔
      x ∈ (ctxSourcesAAB.research_steps.map fun st => st.sources).flatten) ∧
    (generateFinalReport envReportOk ctxSourcesAAB).sources.Nodup ∧
    (∀ x, ((generateFinalReport envReportOk ctxSourcesAAB).sources).count x
        = if x ∈ (ctxSourcesAAB.research_steps.map fun st => st.sources).flatten
          then 1 else 0) ∧
    (generateFinalReport envReportOk ctxSourcesAAB).sources.count "A" = 1 ∧
    (generateFinalReport envReportOk ctxSourcesAAB).sources.count "B" = 1 :=
  c7_report_sources_deduplicated envReportOk ctxSourcesAAB "narrative" rfl (Or.inl rfl)

/-- The refinement counter after one full refined cycle
(analysis-key write, refine step, clarification, research). -/
theorem getRC_cycle (env : AgentEnv) (ctx ctx3 ctx4 : Context)
    (data : List (String × JValue)) (o3 o4 : Option String)
    (hc : clarifyGoals env (refineStep (setCD ctx "analysis" (.json (.obj data))) data)
      = (ctx3, o3))
    (hr : conductResearch env ctx3 = (ctx4, o4)) :
    getRC ctx4.collected_data = getRC ctx.collected_data + 1 := by
  have h1 := getRC_conductResearch env ctx3
  rw [hr] at h1
  have h2 := getRC_clarifyGoals env (refineStep (setCD ctx "analysis" (.json (.obj data))) data)
  rw [hc] at h2
  rw [h1, h2, getRC_refineStep, getRC_setAnalysis]

/-- The number of analysis-oracle invocations of one `_analyse_findings`
call tree is bounded by the remaining refinement budget plus one. -/
theorem analyseCalls_le (env : AgentEnv) :
    ∀ (n : Nat) (ctx : Context), (2 - getRC ctx.collected_data).toNat ≤ n →
      (analyseFindings env ctx).2.2 ≤ (2 - getRC ctx.collected_data).toNat + 1 := by
  intro n
  induction n with
  | zero =>
    intro ctx hm
    rw [analyseFindings]
    split
    · simp
    · split
      · simp
      · simp
      · simp
      · split
        · next hguard =>
          rw [getRC_setAnalysis] at hguard
          omega
        · simp
  | succ n ih =>
    intro ctx hm
    rw [analyseFindings]
    split
    · simp
    · split
      · simp
      · simp
      · simp
      · next data heq =>
        split
        · next hguard =>
          rw [getRC_setAnalysis] at hguard
          split
          · simp
          · next ctx3 hc =>
            split
            · simp
            · next ctx4 hr =>
              have h4 : getRC ctx4.collected_data = getRC ctx.collected_data + 1 :=
                getRC_cycle env ctx ctx3 ctx4 data _ _ hc hr
              have hrec : (analyseFindings env ctx4).2.2
                  ≤ (2 - getRC ctx4.collected_data).toNat + 1 := by
                apply ih
                omega
              split
              · next ctx5 val k hq =>
                have hk : k = (analyseFindings env ctx4).2.2 := by rw [hq]
                simp only []
                omega
              · next ctx5 k hq =>
                have hk : k = (analyseFindings env ctx4).2.2 := by rw [hq]
                simp only []
                omega
        · simp

/-- C2: with every analysis response requesting further research, a run
performs at most 3 analysis invocations (1 initial + 2 refinements), and
the refinement step persists a `refinement_count` exactly one larger than
the current one on every cycle. -/
theorem c2_refinement_bounded (env : AgentEnv) (query : String)
    (H : ∀ ctx, ∃ data, env.analysisResp ctx = .ok data ∧
        pyTruthy ((jLookup data "further_research_needed").getD (.bool false)) = true) :
    runAnalyzeCalls env query ≤ 3 ∧
    (∀ (ctx : Context) (data : List (String × JValue)),
      getRC (refineStep ctx data).collected_data = getRC ctx.collected_data + 1 ∧
      getKey (refineStep ctx data).collected_data "refinement_count"
        = some (.json (.int (getRC ctx.collected_data + 1)))) := by
  have _hH := H
  constructor
  · cases hcl : clarifyGoals env { original_query := query } with
    | mk c1 e1 =>
      cases e1 with
      | some e => simp [runAnalyzeCalls, hcl]
      | none =>
        cases hres : conductResearch env c1 with
        | mk c2 e2 =>
          cases e2 with
          | some e => simp [runAnalyzeCalls, hcl, hres]
          | none =>
            have hA : getRC c1.collected_data = 0 := by
              have h := getRC_clarifyGoals env { original_query := query }
              rw [hcl] at h
              exact h
            have hB : getRC c2.collected_data = 0 := by
              have h := getRC_conductResearch env c1
              rw [hres] at h
              rw [h, hA]
            have hle := analyseCalls_le env (2 - getRC c2.collected_data).toNat c2
              (Nat.le_refl _)
            rw [hB] at hle
            simpa [runAnalyzeCalls, hcl, hres] using hle
  · intro ctx data
    refine ⟨getRC_refineStep ctx data, ?_⟩
    unfold refineStep
    exact getKey_setKey_eq _ _ _

/-- C2 witness: the theorem applied to an oracle that always requests
refinement. -/
theorem c2_witness :
    runAnalyzeCalls envAlwaysRefine "best bug-type team" ≤ 3 ∧
    (∀ (ctx : Context) (data : List (String × JValue)),
      getRC (refineStep ctx data).collected_data = getRC ctx.collected_data + 1 ∧
      getKey (refineStep ctx data).collected_data "refinement_count"
        = some (.json (.int (getRC ctx.collected_data + 1)))) :=
  c2_refinement_bounded envAlwaysRefine "best bug-type team"
    (fun _ => ⟨[("further_research_needed", .bool true)], rfl, rfl⟩)

/-! ## Ledger lemmas: every operation only appends invariant-satisfying
steps -/

theorem stepOK_of_success (st : ResearchStep) (h : st.success = true) : StepOK st := by
  intro hf
  rw [h] at hf
  cases hf

theorem stepOK_of_msg (st : ResearchStep) (e : String) (h : st.error_message = some e) :
    StepOK st := by
  intro _
  rw [h]
  simp

theorem extOK_refl (ctx : Context) : ExtOK ctx ctx :=
  ⟨[], by simp, by simp⟩

theorem extOK_steps_eq {ctx ctx' : Context}
    (h : ctx'.research_steps = ctx.research_steps) : ExtOK ctx ctx' :=
  ⟨[], by rw [h, List.append_nil], by simp⟩

theorem extOK_trans {a b c : Context} (h1 : ExtOK a b) (h2 : ExtOK b c) : ExtOK a c := by
  rcases h1 with ⟨t1, e1, g1⟩
  rcases h2 with ⟨t2, e2, g2⟩
  refine ⟨t1 ++ t2, ?_, ?_⟩
  · rw [e2, e1, List.append_assoc]
  · intro s hs
    rcases List.mem_append.1 hs with h | h
    exacts [g1 s h, g2 s h]

theorem extOK_appendStep (ctx : Context) (st : ResearchStep) (h : StepOK st) :
    ExtOK ctx (appendStep ctx st) := by
  refine ⟨[st], rfl, ?_⟩
  intro s hs
  rw [List.mem_singleton] at hs
  rw [hs]
  exact h

theorem extOK_setCD (ctx : Context) (k : String) (v : CDValue) :
    ExtOK ctx (setCD ctx k v) :=
  extOK_steps_eq rfl

theorem extOK_researchPokemonApi (env : AgentEnv) (v : JValue) (ctx : Context) :
    ExtOK ctx (researchPokemonApi env v ctx) := by
  cases v with
  | str nm =>
    simp only [researchPokemonApi]
    split
    · exact extOK_refl ctx
    · exact extOK_trans (extOK_setCD _ _ _) (extOK_appendStep _ _ (stepOK_of_success _ rfl))
  | nul => exact extOK_appendStep _ _ (stepOK_of_msg _ _ rfl)
  | bool b => exact extOK_appendStep _ _ (stepOK_of_msg _ _ rfl)
  | int n => exact extOK_appendStep _ _ (stepOK_of_msg _ _ rfl)
  | float q => exact extOK_appendStep _ _ (stepOK_of_msg _ _ rfl)
  | arr xs => exact extOK_appendStep _ _ (stepOK_of_msg _ _ rfl)
  | obj kv => exact extOK_appendStep _ _ (stepOK_of_msg _ _ rfl)

theorem extOK_researchPokemonWeb (env : AgentEnv) (v : JValue) (ctx : Context) :
    ExtOK ctx (researchPokemonWeb env v ctx) := by
  unfold researchPokemonWeb
  cases env.webInfo (pyStr v) with
  | error e => exact extOK_appendStep _ _ (stepOK_of_msg _ _ rfl)
  | ok wf =>
    exact extOK_trans (extOK_setCD _ _ _) (extOK_appendStep _ _ (stepOK_of_success _ rfl))

theorem extOK_researchTrainingInfo (env : AgentEnv) (ctx : Context) :
    ExtOK ctx (researchTrainingInfo env ctx) := by
  unfold researchTrainingInfo
  exact extOK_trans (extOK_setCD _ _ _) (extOK_appendStep _ _ (stepOK_of_success _ rfl))

theorem extOK_researchUniquePokemon (env : AgentEnv) (ctx : Context) :
    ExtOK ctx (researchUniquePokemon env ctx) := by
  unfold researchUniquePokemon
  exact extOK_trans (extOK_setCD _ _ _) (extOK_appendStep _ _ (stepOK_of_success _ rfl))

theorem extOK_act_name (env : AgentEnv) (ctx : Context) (v : JValue) (c' : Context)
    (h : act_get_pokemon_by_name env ctx v = .ok c') : ExtOK ctx c' := by
  unfold act_get_pokemon_by_name at h
  cases v <;> simp [asStr, Bind.bind, Except.bind] at h
  case str s =>
    split at h
    · cases Except.ok.inj h; exact extOK_setCD _ _ _
    · cases h

theorem extOK_act_id (env : AgentEnv) (ctx : Context) (v : JValue) (c' : Context)
    (h : act_get_pokemon_by_id env ctx v = .ok c') : ExtOK ctx c' := by
  unfold act_get_pokemon_by_id at h
  split at h
  · cases Except.ok.inj h; exact extOK_setCD _ _ _
  · cases h

theorem extOK_act_type (env : AgentEnv) (ctx : Context) (v : JValue) (c' : Context)
    (h : act_get_pokemon_by_type env ctx v = .ok c') : ExtOK ctx c' := by
  unfold act_get_pokemon_by_type at h
  cases v <;> simp [asStr, Bind.bind, Except.bind] at h
  case str s => cases h; exact extOK_setCD _ _ _

theorem extOK_act_search (env : AgentEnv) (ctx : Context) (v : JValue) (c' : Context)
    (h : act_search_pokemon env ctx v = .ok c') : ExtOK ctx c' := by
  unfold act_search_pokemon at h
  cases v <;> simp [asStr, Bind.bind, Except.bind] at h
  case str s => cases h; exact extOK_setCD _ _ _

theorem extOK_act_evolution (env : AgentEnv) (ctx : Context) (v : JValue) (c' : Context)
    (h : act_get_evolution_chain env ctx v = .ok c') : ExtOK ctx c' := by
  unfold act_get_evolution_chain at h
  cases v <;> simp [asStr, Bind.bind, Except.bind] at h
  case str s => cases h; exact extOK_setCD _ _ _

theorem extOK_act_description (env : AgentEnv) (ctx : Context) (v : JValue) (c' : Context)
    (h : act_get_pokemon_description env ctx v = .ok c') : ExtOK ctx c' := by
  unfold act_get_pokemon_description at h
  cases v <;> simp [asStr, Bind.bind, Except.bind] at h
  case str s => cases h; exact extOK_setCD _ _ _

theorem extOK_act_generation (env : AgentEnv) (ctx : Context) (v : JValue) (c' : Context)
    (h : act_get_generation_info env ctx v = .ok c') : ExtOK ctx c' := by
  unfold act_get_generation_info at h
  cases v <;> simp [asStr, Bind.bind, Except.bind] at h
  case str s => cases h; exact extOK_setCD _ _ _

theorem extOK_act_ability (env : AgentEnv) (ctx : Context) (v : JValue) (c' : Context)
    (h : act_fetch_pokemon_ability env ctx v = .ok c') : ExtOK ctx c' := by
  unfold act_fetch_pokemon_ability at h
  cases v <;> simp [asStr, Bind.bind, Except.bind] at h
  case str s =>
    cases hf : fetch_pokemon_ability env.poke s with
    | error e => rw [hf] at h; simp [Bind.bind, Except.bind] at h
    | ok j =>
      rw [hf] at h
      simp only [Bind.bind, Except.bind, Except.ok.injEq] at h
      cases h; exact extOK_setCD _ _ _

theorem extOK_dispatch_fetch_all (env : AgentEnv) (ctx : Context) (args : JValue)
    (c' : Context) (h : dispatch_fetch_all env ctx args = .ok c') : ExtOK ctx c' := by
  unfold dispatch_fetch_all at h
  obtain ⟨limit, -, h⟩ := except_bind_ok _ _ _ h
  obtain ⟨offset, -, h⟩ := except_bind_ok _ _ _ h
  obtain ⟨j, -, h⟩ := except_bind_ok _ _ _ h
  obtain ⟨keys, -, h⟩ := except_bind_ok _ _ _ h
  cases Except.ok.inj h
  exact extOK_setCD _ _ _

theorem extOK_tryDispatch (env : AgentEnv) (ctx : Context) (fname : String) (args : JValue)
    (ctx' : Context) (h : tryDispatch env ctx fname args = .ok ctx') : ExtOK ctx ctx' := by
  unfold tryDispatch at h
  by_cases h1 : fname = "get_pokemon_by_name"
  · rw [if_pos h1] at h
    exact argTruthy_post (ExtOK ctx) _ _ _ _ _ (extOK_refl ctx) (extOK_act_name env ctx) h
  rw [if_neg h1] at h
  by_cases h2 : fname = "get_pokemon_by_id"
  · rw [if_pos h2] at h
    exact argTruthy_post (ExtOK ctx) _ _ _ _ _ (extOK_refl ctx) (extOK_act_id env ctx) h
  rw [if_neg h2] at h
  by_cases h3 : fname = "get_pokemon_by_type"
  · rw [if_pos h3] at h
    exact argTruthy_post (ExtOK ctx) _ _ _ _ _ (extOK_refl ctx) (extOK_act_type env ctx) h
  rw [if_neg h3] at h
  by_cases h4 : fname = "search_pokemon"
  · rw [if_pos h4] at h
    exact argTruthy_post (ExtOK ctx) _ _ _ _ _ (extOK_refl ctx) (extOK_act_search env ctx) h
  rw [if_neg h4] at h
  by_cases h5 : fname = "get_evolution_chain"
  · rw [if_pos h5] at h
    exact argTruthy_post (ExtOK ctx) _ _ _ _ _ (extOK_refl ctx) (extOK_act_evolution env ctx) h
  rw [if_neg h5] at h
  by_cases h6 : fname = "get_pokemon_description"
  · rw [if_pos h6] at h
    exact argTruthy_post (ExtOK ctx) _ _ _ _ _ (extOK_refl ctx)
      (extOK_act_description env ctx) h
  rw [if_neg h6] at h
  by_cases h7 : fname = "get_all_types"
  · rw [if_pos h7] at h
    cases Except.ok.inj h
    exact extOK_setCD _ _ _
  rw [if_neg h7] at h
  by_cases h8 : fname = "get_generation_info"
  · rw [if_pos h8] at h
    exact argTruthy_post (ExtOK ctx) _ _ _ _ _ (extOK_refl ctx) (extOK_act_generation env ctx) h
  rw [if_neg h8] at h
  by_cases h9 : fname = "fetch_all_pokemon"
  · rw [if_pos h9] at h
    exact extOK_dispatch_fetch_all env ctx args ctx' h
  rw [if_neg h9] at h
  by_cases h10 : fname = "fetch_pokemon_ability"
  · rw [if_pos h10] at h
    exact argTruthy_post (ExtOK ctx) _ _ _ _ _ (extOK_refl ctx) (extOK_act_ability env ctx) h
  rw [if_neg h10] at h
  by_cases h11 : fname = "_research_pokemon_api"
  · rw [if_pos h11] at h
    exact argTruthy_post (ExtOK ctx) _ _ _ _ _ (extOK_refl ctx)
      (fun v c' hv => by cases Except.ok.inj hv; exact extOK_researchPokemonApi env v ctx) h
  rw [if_neg h11] at h
  by_cases h12 : fname = "_research_pokemon_web"
  · rw [if_pos h12] at h
    exact argTruthy_post (ExtOK ctx) _ _ _ _ _ (extOK_refl ctx)
      (fun v c' hv => by cases Except.ok.inj hv; exact extOK_researchPokemonWeb env v ctx) h
  rw [if_neg h12] at h
  by_cases h13 : fname = "_research_training_info"
  · rw [if_pos h13] at h
    cases Except.ok.inj h
    exact extOK_researchTrainingInfo env ctx
  rw [if_neg h13] at h
  by_cases h14 : fname = "_research_unique_pokemon"
  · rw [if_pos h14] at h
    cases Except.ok.inj h
    exact extOK_researchUniquePokemon env ctx
  rw [if_neg h14] at h
  cases Except.ok.inj h
  exact extOK_refl ctx

theorem extOK_execOne (env : AgentEnv) (i : Nat) (ctx : Context) (tc : ToolCall) :
    ExtOK ctx (execOne env i ctx tc) := by
  unfold execOne
  cases hp : parseArgs tc.args with
  | error e =>
    simp only [Bind.bind, Except.bind, hp]
    exact extOK_appendStep _ _ (stepOK_of_msg _ _ rfl)
  | ok args =>
    cases ht : tryDispatch env ctx tc.name args with
    | error e =>
      simp only [Bind.bind, Except.bind, hp, ht]
      exact extOK_appendStep _ _ (stepOK_of_msg _ _ rfl)
    | ok c =>
      simp only [Bind.bind, Except.bind, hp, ht]
      exact extOK_tryDispatch _ _ _ _ _ ht

theorem extOK_foldl {α : Type} (f : Context → α → Context)
    (hf : ∀ c a, ExtOK c (f c a)) : ∀ (l : List α) (c : Context), ExtOK c (l.foldl f c) := by
  intro l
  induction l with
  | nil => intro c; exact extOK_refl c
  | cons a t ih =>
    intro c
    rw [List.foldl_cons]
    exact extOK_trans (hf c a) (ih (f c a))

theorem extOK_execBatch (env : AgentEnv) (i : Nat) (tcs : List ToolCall) (ctx : Context) :
    ExtOK ctx (execBatch env i tcs ctx) :=
  extOK_foldl _ (fun c tc => extOK_execOne env i c tc) tcs ctx

theorem extOK_batchReplay (env : AgentEnv) (i : Nat) (toolCalls : Option (List ToolCall))
    (ctx : Context) : ExtOK ctx (batchReplay env i toolCalls ctx) := by
  unfold batchReplay
  split
  · exact extOK_foldl _ (fun c _ => extOK_execBatch env i _ c) _ ctx
  · exact extOK_refl ctx

theorem extOK_workerSynthesis (env : AgentEnv) (i : Nat) (ctx : Context) :
    ExtOK ctx (workerSynthesis env i ctx) := by
  unfold workerSynthesis
  cases env.research2 ctx i with
  | raised e => exact extOK_appendStep _ _ (stepOK_of_msg _ _ rfl)
  | msg c2 tcs =>
    cases c2 with
    | none => exact extOK_appendStep _ _ (stepOK_of_msg _ _ rfl)
    | some s =>
      exact extOK_trans (extOK_setCD _ _ _) (extOK_appendStep _ _ (stepOK_of_success _ rfl))

theorem extOK_runWorkerAfterBatch (env : AgentEnv) (i : Nat) (content : Option String)
    (toolCalls : Option (List ToolCall)) (ctx : Context) :
    ExtOK ctx (runWorkerAfterBatch env i content toolCalls ctx).1 := by
  unfold runWorkerAfterBatch
  split
  · exact extOK_appendStep _ _ (stepOK_of_msg _ _ rfl)
  · cases toolCalls with
    | none =>
      simp only [execFunctionCalls]
      exact extOK_trans (extOK_appendStep _ _ (stepOK_of_success _ rfl))
        (extOK_appendStep _ _ (stepOK_of_msg _ _ rfl))
    | some l =>
      simp only [execFunctionCalls]
      exact extOK_trans (extOK_appendStep _ _ (stepOK_of_success _ rfl))
        (extOK_trans (extOK_execBatch env i l _) (extOK_workerSynthesis env i _))

theorem extOK_runWorker (env : AgentEnv) (instrs : JValue) (n i : Nat) (ctx : Context) :
    ExtOK ctx (runWorker env instrs n i ctx).1 := by
  unfold runWorker
  cases workerTask instrs i with
  | error e => exact extOK_refl ctx
  | ok task =>
    simp only []
    split
    · exact extOK_refl ctx
    · split
      · exact extOK_refl ctx
      · cases env.research1 ctx i with
        | raised e => exact extOK_appendStep _ _ (stepOK_of_msg _ _ rfl)
        | msg content toolCalls =>
          exact extOK_trans (extOK_batchReplay env i toolCalls ctx)
            (extOK_runWorkerAfterBatch env i content toolCalls _)

theorem extOK_workersLoop (env : AgentEnv) (instrs : JValue) (n : Nat) (l : List Nat)
    (ctx : Context) : ExtOK ctx (workersLoop env instrs n l ctx).1 := by
  induction l generalizing ctx with
  | nil => exact extOK_refl ctx
  | cons i rest ih =>
    unfold workersLoop
    cases hw : runWorker env instrs n i ctx with
    | mk c exc =>
      have hstep : ExtOK ctx c := by
        have := extOK_runWorker env instrs n i ctx
        rw [hw] at this
        exact this
      cases exc with
      | none =>
        simp only []
        exact extOK_trans hstep (ih c)
      | some e =>
        simp only []
        exact hstep

theorem extOK_conductResearch (env : AgentEnv) (ctx : Context) :
    ExtOK ctx (conductResearch env ctx).1 :=
  extOK_workersLoop env _ _ _ ctx

theorem extOK_clarifyGoals (env : AgentEnv) (ctx : Context) :
    ExtOK ctx (clarifyGoals env ctx).1 := by
  unfold clarifyGoals
  cases env.clarifyResp ctx with
  | raised e => exact extOK_refl ctx
  | noContent => exact extOK_appendStep _ _ (stepOK_of_msg _ _ rfl)
  | malformed e => exact extOK_appendStep _ _ (stepOK_of_msg _ _ rfl)
  | ok data =>
    exact extOK_trans (extOK_steps_eq (by rfl))
      (extOK_appendStep _ _ (stepOK_of_success _ rfl))

theorem extOK_analyseFindings_aux (env : AgentEnv) :
    ∀ (n : Nat) (ctx : Context), (2 - getRC ctx.collected_data).toNat ≤ n →
      ExtOK ctx (analyseFindings env ctx).1 := by
  intro n
  induction n with
  | zero =>
    intro ctx hm
    rw [analyseFindings]
    split
    · exact extOK_refl ctx
    · split
      · exact extOK_refl ctx
      · exact extOK_refl ctx
      · exact extOK_refl ctx
      · next data heq =>
        split
        · next hguard =>
          rw [getRC_setAnalysis] at hguard
          omega
        · exact extOK_trans (extOK_setCD _ _ _)
            (extOK_appendStep _ _ (stepOK_of_success _ rfl))
  | succ n ih =>
    intro ctx hm
    rw [analyseFindings]
    split
    · exact extOK_refl ctx
    · split
      · exact extOK_refl ctx
      · exact extOK_refl ctx
      · exact extOK_refl ctx
      · next data heq =>
        split
        · next hguard =>
          rw [getRC_setAnalysis] at hguard
          split
          · next ctx3 val hc =>
            have h2 : ExtOK (refineStep (setCD ctx "analysis" (.json (.obj data))) data) ctx3 := by
              have := extOK_clarifyGoals env
                (refineStep (setCD ctx "analysis" (.json (.obj data))) data)
              rw [hc] at this
              exact this
            exact extOK_trans (extOK_steps_eq (by rfl)) h2
          · next ctx3 hc =>
            have h2 : ExtOK (refineStep (setCD ctx "analysis" (.json (.obj data))) data) ctx3 := by
              have := extOK_clarifyGoals env
                (refineStep (setCD ctx "analysis" (.json (.obj data))) data)
              rw [hc] at this
              exact this
            have h2' : ExtOK ctx ctx3 := extOK_trans (extOK_steps_eq (by rfl)) h2
            split
            · next ctx4 val hr =>
              have h3 : ExtOK ctx3 ctx4 := by
                have := extOK_conductResearch env ctx3
                rw [hr] at this
                exact this
              exact extOK_trans h2' h3
            · next ctx4 hr =>
              have h3 : ExtOK ctx3 ctx4 := by
                have := extOK_conductResearch env ctx3
                rw [hr] at this
                exact this
              have h3' : ExtOK ctx ctx4 := extOK_trans h2' h3
              have h4 : getRC ctx4.collected_data = getRC ctx.collected_data + 1 :=
                getRC_cycle env ctx ctx3 ctx4 data _ _ hc hr
              have hrec : ExtOK ctx4 (analyseFindings env ctx4).1 := by
                apply ih
                omega
              split
              · next ctx5 val k hq =>
                have h5 : ExtOK ctx4 ctx5 := by
                  rw [hq] at hrec
                  exact hrec
                exact extOK_trans h3' h5
              · next ctx5 k hq =>
                have h5 : ExtOK ctx4 ctx5 := by
                  rw [hq] at hrec
                  exact hrec
                exact extOK_trans (extOK_trans h3' h5)
                  (extOK_appendStep _ _ (stepOK_of_success _ rfl))
        · exact extOK_trans (extOK_setCD _ _ _)
            (extOK_appendStep _ _ (stepOK_of_success _ rfl))

theorem extOK_analyseFindings (env : AgentEnv) (ctx : Context) :
    ExtOK ctx (analyseFindings env ctx).1 :=
  extOK_analyseFindings_aux env (2 - getRC ctx.collected_data).toNat ctx (Nat.le_refl _)

theorem report_steps_eq (env : AgentEnv) (ctx : Context) :
    (generateFinalReport env ctx).research_steps = ctx.research_steps := by
  unfold generateFinalReport
  cases env.reportResp ctx with
  | raised e => rfl
  | noContent => rfl
  | content s =>
    cases hk : getKey ctx.collected_data "analysis" with
    | none => rfl
    | some c =>
      cases c with
      | pokemonList ps => rfl
      | json j => cases j <;> rfl

theorem ledgerOK_nil : LedgerOK [] := by
  intro s hs
  cases hs

theorem ledgerOK_of_ext {l l' : List ResearchStep} (h : LedgerOK l) (he : LedgerExt l l') :
    LedgerOK l' := by
  rcases he with ⟨t, rfl, ht⟩
  intro s hs
  rcases List.mem_append.1 hs with h1 | h2
  exacts [h s h1, ht s h2]

/-- The clarification-failed context of the trivial run. -/
def ctxAfterClarTriv : Context :=
  appendStep { original_query := "best bug-type team" }
    (failClarStep "LLM returned no clarification goal content")

/-- The context of the trivial run after its single failed worker. -/
def ctxAfterResTriv : Context :=
  appendStep ctxAfterClarTriv (failWorkerStep 0 "step 1 " "offline")

/-- C9: the research-step ledger invariant.  Every phase of the
orchestrator, and the function dispatcher, only ever appends steps to the
ledger — never mutating or removing an existing entry — and every appended
step with `success = false` carries an error message; the report carries
the ledger unchanged, so the invariant holds in every reachable state of a
run. -/
theorem c9_ledger_append_only_invariant :
    (∀ (env : AgentEnv) (ctx : Context), ExtOK ctx (clarifyGoals env ctx).1) ∧
    (∀ (env : AgentEnv) (ctx : Context), ExtOK ctx (conductResearch env ctx).1) ∧
    (∀ (env : AgentEnv) (ctx : Context), ExtOK ctx (analyseFindings env ctx).1) ∧
    (∀ (env : AgentEnv) (i : Nat) (tcs : List ToolCall) (ctx : Context),
      ExtOK ctx (execBatch env i tcs ctx)) ∧
    (∀ (env : AgentEnv) (ctx : Context),
      (generateFinalReport env ctx).research_steps = ctx.research_steps) ∧
    (∀ (env : AgentEnv) (q : String) (r : ResearchReport),
      run env q = .ok r → LedgerOK r.research_steps) := by
  refine ⟨extOK_clarifyGoals, extOK_conductResearch, extOK_analyseFindings,
    fun env i tcs ctx => extOK_execBatch env i tcs ctx, report_steps_eq, ?_⟩
  intro env q r h
  unfold run at h
  split at h
  · exact Except.noConfusion h
  · next c1 hcl =>
    split at h
    · exact Except.noConfusion h
    · next c2 hres =>
      split at h
      · exact Except.noConfusion h
      · next c3 k hana =>
        cases Except.ok.inj h
        rw [report_steps_eq]
        have e1 : ExtOK { original_query := q } c1 := by
          have := extOK_clarifyGoals env { original_query := q }
          rw [hcl] at this
          exact this
        have e2 : ExtOK c1 c2 := by
          have := extOK_conductResearch env c1
          rw [hres] at this
          exact this
        have e3 : ExtOK c2 c3 := by
          have := extOK_analyseFindings env c2
          rw [hana] at this
          exact this
        exact ledgerOK_of_ext (ledgerOK_of_ext (ledgerOK_of_ext ledgerOK_nil e1) e2) e3

/-- C9 witness: the run-level invariant applied to a concrete degraded
run. -/
theorem c9_witness : LedgerOK reportTriv.research_steps :=
  c9_ledger_append_only_invariant.2.2.2.2.2 envTriv "best bug-type team" reportTriv (by
    have h1 : clarifyGoals envTriv { original_query := "best bug-type team" }
        = (ctxAfterClarTriv, none) := rfl
    have h2 : conductResearch envTriv ctxAfterClarTriv = (ctxAfterResTriv, none) := rfl
    have h3 : analyseFindings envTriv ctxAfterResTriv = (ctxAfterResTriv, none, 1) := by
      rw [analyseFindings]
      rfl
    simp only [run, h1, h2, h3]
    rfl)

end Pokedex
